import Mathlib

/-!
Verification of the LLM dungeon roguelike against its specification.

This file shallowly embeds the Python sources of the game
(src/game/world/dungeon.py, src/game/world/map_generator.py,
src/game/engine/game.py, src/game/entities/entity.py,
src/game/entities/npc.py, src/game/entities/npc_generator.py) as
executable Lean definitions and proves or refutes the specification
claims about them.

Modelling conventions:
- Python lists become Lean `List`s; in-place mutation becomes explicit
  state passing.
- Python `random` is an injected random source: a stream of naturals
  (`Rng`); `random.randint(lo, hi)` consumes one value `v` and yields
  `lo + v % (hi + 1 - lo)`, `random.random() < p` consumes one value and
  compares its fractional part (six decimal digits) against `p`.
- The external text-completion capability (`portkey.claude37sonnet`) is an
  injected function; where the Python call can raise it is injected as
  `String → Except String String`.
- Unbounded `while True:` loops become fuel-indexed recursion returning
  `Option`; `none` models non-termination of the rejection loop.
- Machine floats appear in exactly one claim-relevant place, the
  conversation-history trim `int(self.max_history_length * 0.7)`; that
  computation is modelled bit-exactly over `Nat` (IEEE-754 binary64
  round-to-nearest-even), see `floatMul07`.
-/

namespace Rogue

/-- One conversation exchange `{"query": ..., "response": ...}`
(npc.py stores dicts with these two keys). -/
structure Exchange where
  query : String
  response : String
deriving DecidableEq, Repr

/-- Python `a or b` for strings: `b` when `a` is `None` or empty
(used by the `NPC.__init__` / `Enemy.__init__` defaults). -/
def pyOrStr (a : Option String) (b : String) : String :=
  match a with
  | none => b
  | some s => if s.isEmpty then b else s

/-- Python `a or b` for string lists: `b` when `a` is `None` or empty. -/
def pyOrList (a : Option (List String)) (b : List String) : List String :=
  match a with
  | none => b
  | some l => if l.isEmpty then b else l

/-- Game entity (entity.py `Entity` and the fields added by the
`Player`, `NPC` and `Enemy` subclasses, folded into one record;
`entity_type` plays the role of the dynamic class tag).  The `Player`
object's unused `inventory` field is omitted.  The Python back-reference
`player.dungeon` (set nowhere in the repository, accessed via `hasattr`)
is passed explicitly as an `Option Dungeon` argument to the update
functions instead of being stored, to avoid a cyclic record. -/
structure Entity where
  name : String
  char : String
  color_pair : Nat
  x : Int
  y : Int
  blocks_movement : Bool
  entity_type : String
  hp : Int
  max_hp : Int
  attack : Int
  behavior : String
  personality : String
  dialogue : List String
  description : String
  current_dialogue_index : Nat
  move_cooldown : Int
  move_cooldown_max : Int
  detection_range : Int
  conversation_history : List Exchange
  max_history_length : Nat
deriving DecidableEq, Repr

/-- `Entity.__init__` (entity.py): the base constructor; subclass-only
fields are zeroed/emptied. -/
def Entity.base (name : String) (char : String := "?") (color_pair : Nat := 1)
    (x : Int := 0) (y : Int := 0) (blocks_movement : Bool := false)
    (entity_type : String := "generic") : Entity :=
  { name := name, char := char, color_pair := color_pair, x := x, y := y
    blocks_movement := blocks_movement, entity_type := entity_type
    hp := 0, max_hp := 0, attack := 0, behavior := "", personality := ""
    dialogue := [], description := "", current_dialogue_index := 0
    move_cooldown := 0, move_cooldown_max := 0, detection_range := 0
    conversation_history := [], max_history_length := 0 }

/-- `NPC.__init__` (npc.py). -/
def NPC.make (name : String) (x : Int := 0) (y : Int := 0)
    (personality : Option String := none) (dialogue : Option (List String) := none)
    (description : Option String := none) (max_history_length : Nat := 10) : Entity :=
  { Entity.base name "N" 5 x y true "npc" with
    personality := pyOrStr personality "Neutral"
    dialogue := pyOrList dialogue ["Hello, adventurer."]
    description := pyOrStr description "A mysterious figure."
    current_dialogue_index := 0
    move_cooldown := 0
    move_cooldown_max := 5
    conversation_history := []
    max_history_length := max_history_length }

/-- `Enemy.__init__` (npc.py). -/
def Enemy.make (name : String) (x : Int := 0) (y : Int := 0)
    (hp : Int := 20) (attack : Int := 5) (behavior : Option String := none)
    (personality : Option String := none) (description : Option String := none)
    (max_history_length : Nat := 10) : Entity :=
  { Entity.base name "E" 3 x y true "enemy" with
    hp := hp
    max_hp := hp
    attack := attack
    behavior := pyOrStr behavior "aggressive"
    personality := pyOrStr personality "Hostile"
    description := pyOrStr description "A menacing creature."
    move_cooldown := 0
    move_cooldown_max := 3
    detection_range := 8
    conversation_history := []
    max_history_length := max_history_length }

/-- `Player.__init__` (player.py). -/
def Player.make (name : String) (x : Int := 0) (y : Int := 0)
    (hp : Int := 100) (max_hp : Int := 100) (attack : Int := 10) : Entity :=
  { Entity.base name "@" 2 x y true "player" with
    hp := hp, max_hp := max_hp, attack := attack }

/-- The tile grid: column-major nested lists, `tiles[x][y]` with
tile codes 0 = Wall, 1 = Floor, 2 = Stairs (dungeon.py). -/
abbrev Grid := List (List Nat)

/-- Read `tiles[x][y]` (out-of-range reads default to 0; the Python code
only indexes after an explicit bounds check, see `is_walkable`). -/
def getTile (t : Grid) (x y : Nat) : Nat :=
  (t.getD x []).getD y 0

/-- Write `tiles[x][y] = v` (out-of-range writes are dropped; the Python
code only writes in bounds). -/
def setTile (t : Grid) (x y : Nat) (v : Nat) : Grid :=
  t.set x ((t.getD x []).set y v)

/-- `Dungeon` (dungeon.py): tile grid plus entity bookkeeping
(`entities` is the all-entities list, `npcs`/`enemies` the kind views;
the always-empty `items` list is kept for fidelity). -/
structure Dungeon where
  width : Nat
  height : Nat
  tiles : Grid
  entities : List Entity
  npcs : List Entity
  enemies : List Entity
  items : List Entity
deriving DecidableEq, Repr

/-- `Dungeon.__init__`: all-wall grid, empty entity lists. -/
def Dungeon.init (width height : Nat) : Dungeon :=
  { width := width, height := height
    tiles := List.replicate width (List.replicate height 0)
    entities := [], npcs := [], enemies := [], items := [] }

/-- `Dungeon.is_walkable` (dungeon.py): in bounds, tile is Floor or
Stairs, and no blocking entity occupies the cell. -/
def Dungeon.is_walkable (d : Dungeon) (x y : Int) : Bool :=
  if 0 ≤ x ∧ x < (d.width : Int) ∧ 0 ≤ y ∧ y < (d.height : Int) then
    if getTile d.tiles x.toNat y.toNat ≠ 1 ∧ getTile d.tiles x.toNat y.toNat ≠ 2 then
      false
    else
      !(d.entities.any fun e => e.x == x && e.y == y && e.blocks_movement)
  else false

/-- `Dungeon.is_level_exit` (dungeon.py). -/
def Dungeon.is_level_exit (d : Dungeon) (x y : Int) : Bool :=
  if 0 ≤ x ∧ x < (d.width : Int) ∧ 0 ≤ y ∧ y < (d.height : Int) then
    getTile d.tiles x.toNat y.toNat == 2
  else false

/-- `Dungeon.is_position_clear` (dungeon.py). -/
def Dungeon.is_position_clear (d : Dungeon) (x y : Int) : Bool :=
  !(d.entities.any fun e => e.x == x && e.y == y)

/-- `Dungeon.get_adjacent_npc` (dungeon.py): first NPC within Chebyshev
distance 1 of `(x, y)`. -/
def Dungeon.get_adjacent_npc (d : Dungeon) (x y : Int) : Option Entity :=
  d.npcs.find? fun npc => (npc.x - x).natAbs ≤ 1 && (npc.y - y).natAbs ≤ 1

/-- `Dungeon.get_adjacent_enemy` (dungeon.py): first enemy within
Chebyshev distance 1 of `(x, y)`. -/
def Dungeon.get_adjacent_enemy (d : Dungeon) (x y : Int) : Option Entity :=
  d.enemies.find? fun enemy => (enemy.x - x).natAbs ≤ 1 && (enemy.y - y).natAbs ≤ 1

/-- `Dungeon.remove_entity` (dungeon.py): drop from the all-entities
list and from the kind-specific list (`List.erase` removes the first
matching element, like Python `list.remove`, and is a no-op if absent). -/
def Dungeon.remove_entity (d : Dungeon) (entity : Entity) : Dungeon :=
  let d := if entity ∈ d.entities then { d with entities := d.entities.erase entity } else d
  if entity.entity_type = "npc" ∧ entity ∈ d.npcs then
    { d with npcs := d.npcs.erase entity }
  else if entity.entity_type = "enemy" ∧ entity ∈ d.enemies then
    { d with enemies := d.enemies.erase entity }
  else d

/-- Models shared in-place mutation of one entity object that the
`entities`/`npcs`/`enemies` lists alias in Python: every list entry equal
to `old` becomes `new`.  This coincides with Python object identity
whenever the stored entities are pairwise distinct values. -/
def Dungeon.updateEntity (d : Dungeon) (old new : Entity) : Dungeon :=
  { d with
    entities := d.entities.map fun e => if e = old then new else e
    npcs := d.npcs.map fun e => if e = old then new else e
    enemies := d.enemies.map fun e => if e = old then new else e }

/-- Injected random source: a stream of naturals and a cursor. -/
structure Rng where
  seq : Nat → Nat
  idx : Nat

/-- Draw the next raw value. -/
def Rng.next (r : Rng) : Nat × Rng :=
  (r.seq r.idx, { r with idx := r.idx + 1 })

/-- `random.randint(lo, hi)`: uniform on `[lo, hi]`; the Python call
requires `lo ≤ hi` (it raises otherwise), which every theorem below
guarantees at each call site. -/
def randint (lo hi : Nat) (r : Rng) : Nat × Rng :=
  let (v, r') := r.next
  (lo + v % (hi + 1 - lo), r')

/-- `random.random()` down-sampled to six decimal digits: the draw is
`u / 1000000` with `u` uniform on `[0, 999999]`; comparisons against the
literals 0.5 and 0.2 in the source become `u < 500000` and `u < 200000`. -/
def randomUnit (r : Rng) : Nat × Rng :=
  let (v, r') := r.next
  (v % 1000000, r')

/-- `random.choice([-1, 0, 1])` (npc.py random movement). -/
def randChoice3 (r : Rng) : Int × Rng :=
  let (v, r') := r.next
  (([-1, 0, 1] : List Int).getD (v % 3) 0, r')

/-- `Room` (map_generator.py): axis-aligned rectangle, `(x1, y1)` top
left and `(x2, y2)` bottom right.  Generation only ever builds rooms
with nonnegative coordinates, so `Nat` is used. -/
structure Room where
  x1 : Nat
  y1 : Nat
  x2 : Nat
  y2 : Nat
deriving DecidableEq, Repr

/-- `Room.center`: integer midpoint (floor division). -/
def Room.center (r : Room) : Nat × Nat :=
  ((r.x1 + r.x2) / 2, (r.y1 + r.y2) / 2)

/-- `Room.intersects`: inclusive rectangle overlap test. -/
def Room.intersects (r other : Room) : Bool :=
  r.x1 ≤ other.x2 && other.x1 ≤ r.x2 && r.y1 ≤ other.y2 && other.y1 ≤ r.y2

/-- `MapGenerator.max_rooms` (map_generator.py `__init__`). -/
def max_rooms : Nat := 10

/-- `MapGenerator.min_room_size`. -/
def min_room_size : Nat := 5

/-- `MapGenerator.max_room_size`. -/
def max_room_size : Nat := 10

/-- The wall fill at the top of `generate_dungeon`: `tiles[x][y] = 0`
for every cell. -/
def fillWalls (t : Grid) (width height : Nat) : Grid :=
  (List.range width).foldl
    (fun acc x => (List.range height).foldl (fun acc2 y => setTile acc2 x y 0) acc) t

/-- `MapGenerator._carve_room`: interior cells (excluding the boundary
rows/columns) become Floor. -/
def carve_room (t : Grid) (room : Room) : Grid :=
  (List.range' (room.x1 + 1) (room.x2 - (room.x1 + 1))).foldl
    (fun acc x =>
      (List.range' (room.y1 + 1) (room.y2 - (room.y1 + 1))).foldl
        (fun acc2 y => setTile acc2 x y 1) acc)
    t

/-- `MapGenerator._carve_h_tunnel`: Floor along row `y` from
`min x1 x2` to `max x1 x2` inclusive. -/
def carve_h_tunnel (t : Grid) (x1 x2 y : Nat) : Grid :=
  (List.range' (min x1 x2) (max x1 x2 + 1 - min x1 x2)).foldl
    (fun acc x => setTile acc x y 1) t

/-- `MapGenerator._carve_v_tunnel`: Floor along column `x` from
`min y1 y2` to `max y1 y2` inclusive. -/
def carve_v_tunnel (t : Grid) (y1 y2 x : Nat) : Grid :=
  (List.range' (min y1 y2) (max y1 y2 + 1 - min y1 y2)).foldl
    (fun acc y => setTile acc x y 1) t

/-- `MapGenerator._create_direct_path`: the emergency repair corridor, a
horizontal run at the start row followed by a vertical run at the end
column, all carved to Floor. -/
def create_direct_path (t : Grid) (start stop : Nat × Nat) : Grid :=
  let t1 := carve_h_tunnel t start.1 stop.1 start.2
  carve_v_tunnel t1 start.2 stop.2 stop.1

/-- The four BFS directions of `_verify_path`: up, right, down, left. -/
def bfsDirections : List (Int × Int) := [(0, -1), (1, 0), (0, 1), (-1, 0)]

/-- The loop of `MapGenerator._verify_path` (identical to
`Game._verify_path`): breadth-first search with an explicit queue and
visited set.  The Python loop always terminates (positions are enqueued
only while unvisited over a finite grid); the embedding carries fuel and
answers `false` if it were ever exhausted. -/
def bfsLoop (d : Dungeon) (stop : Int × Int) :
    Nat → List (Int × Int) → List (Int × Int) → Bool
  | 0, _, _ => false
  | _ + 1, [], _ => false
  | fuel + 1, current :: queue, visited =>
    if current = stop then true
    else if current ∈ visited then bfsLoop d stop fuel queue visited
    else
      let visited' := current :: visited
      let queue' := queue ++ bfsDirections.filterMap fun dir =>
        let nxt := (current.1 + dir.1, current.2 + dir.2)
        if d.is_walkable nxt.1 nxt.2 ∧ nxt ∉ visited' then some nxt else none
    bfsLoop d stop fuel queue' visited'

/-- Fuel sufficient for the BFS of an entire dungeon: every cell is
dequeued at most five times (once per enqueueing neighbour plus the
seed). -/
def bfsFuel (d : Dungeon) : Nat :=
  5 * (d.width * d.height) + 5

/-- `MapGenerator._verify_path` / `Game._verify_path`. -/
def verify_path (d : Dungeon) (start stop : Int × Int) : Bool :=
  bfsLoop d stop (bfsFuel d) [start] []

/-- One iteration of the room loop of `MapGenerator.generate_dungeon`
(map_generator.py lines 58-106), operating on the grid, the ordered room
list and the random source. -/
def genStep (width height : Nat) (t : Grid) (rooms : List Room) (r : Rng) :
    Grid × List Room × Rng :=
  let (w, r) := randint min_room_size max_room_size r
  let (h, r) := randint min_room_size max_room_size r
  let (x, r) := randint 1 (width - w - 1) r
  let (y, r) := randint 1 (height - h - 1) r
  let new_room : Room := { x1 := x, y1 := y, x2 := x + w, y2 := y + h }
  if rooms.any (fun other_room => new_room.intersects other_room) then
    (t, rooms, r)
  else
    let t := carve_room t new_room
    let num_rooms := rooms.length
    let (t, r) :=
      if num_rooms > 0 then
        let prev := (rooms.getLastD new_room).center
        let curr := new_room.center
        let (u, r) := randomUnit r
        let t :=
          if u < 500000 then
            carve_v_tunnel (carve_h_tunnel t prev.1 curr.1 prev.2) prev.2 curr.2 curr.1
          else
            carve_h_tunnel (carve_v_tunnel t prev.2 curr.2 prev.1) prev.1 curr.1 curr.2
        if num_rooms > 1 then
          let (u2, r) := randomUnit r
          if u2 < 200000 then
            let (rand_room_idx, r) := randint 0 (num_rooms - 1) r
            let rnd := ((rooms.getD rand_room_idx new_room)).center
            let (u3, r) := randomUnit r
            let t :=
              if u3 < 500000 then
                carve_v_tunnel (carve_h_tunnel t curr.1 rnd.1 curr.2) curr.2 rnd.2 rnd.1
              else
                carve_h_tunnel (carve_v_tunnel t curr.2 rnd.2 curr.1) curr.1 rnd.1 rnd.2
            (t, r)
          else (t, r)
        else (t, r)
      else (t, r)
    (t, rooms ++ [new_room], r)

/-- The full room loop: `max_rooms` independent placement attempts. -/
def genLoop (width height : Nat) :
    Nat → Grid → List Room → Rng → Grid × List Room × Rng
  | 0, t, rooms, r => (t, rooms, r)
  | n + 1, t, rooms, r =>
    let (t', rooms', r') := genStep width height t rooms r
    genLoop width height n t' rooms' r'

/-- `MapGenerator.generate_dungeon` (map_generator.py): wall fill, room
placement with L-tunnels, stairs in the last room, BFS check and (if it
fails) the forced repair corridor.  Returns the dungeon together with
the generator's `rooms` list and the advanced random source. -/
def generate_dungeon (width height : Nat) (r : Rng) :
    Dungeon × List Room × Rng :=
  match genLoop width height max_rooms
      (fillWalls (Dungeon.init width height).tiles width height) [] r with
  | (t, rooms, r) =>
    match rooms.getLast? with
    | none => ({ Dungeon.init width height with tiles := t }, rooms, r)
    | some last_room =>
      let s := last_room.center
      let t2 := setTile t s.1 s.2 2
      let d := { Dungeon.init width height with tiles := t2 }
      let first := (rooms.headD last_room).center
      if verify_path d ((first.1 : Int), (first.2 : Int)) ((s.1 : Int), (s.2 : Int)) then
        (d, rooms, r)
      else
        ({ d with tiles := create_direct_path t2 first s }, rooms, r)

/-- Round `p / 2 ^ e` to the nearest integer, ties to even (the IEEE-754
rounding step). -/
def roundNearestEven (p e : Nat) : Nat :=
  if e = 0 then p
  else
    let q := p / 2 ^ e
    let rest := p % 2 ^ e
    let half := 2 ^ (e - 1)
    if half < rest then q + 1
    else if rest < half then q
    else if q % 2 = 0 then q else q + 1

/-- Round a natural number to the nearest IEEE-754 binary64 value
(53 significant bits, round to nearest, ties to even), returned as the
exact integer it denotes. -/
def round53 (p : Nat) : Nat :=
  if p < 2 ^ 53 then p
  else
    let s := Nat.log2 p + 1 - 53
    roundNearestEven p s * 2 ^ s

/-- The binary64 value of the literal `0.7` is exactly
`mant07 / 2 ^ 52`. -/
def mant07 : Nat := 3152519739159347

/-- Bit-exact model of Python `int(n * 0.7)` for a nonnegative int `n`:
`n` is converted to binary64 (`round53 n`), multiplied by the binary64
value of `0.7` with one rounding (`round53` of the exact product scaled
by `2 ^ 52`), and truncated towards zero.  Cross-validated against
CPython on an exhaustive small range and random 90-bit values. -/
def floatMul07 (n : Nat) : Nat :=
  round53 (round53 n * mant07) / 2 ^ 52

/-- Python `l[-k:]`: the last `k` elements, except that `k = 0` yields
the whole list (`l[-0:]` is `l[0:]`).  This corner case is load-bearing
below: the history trim computes `k = int(max_history_length * 0.7)`,
which is 0 when `max_history_length ≤ 1`. -/
def pySliceLast {α : Type} (l : List α) (k : Nat) : List α :=
  if k = 0 then l else l.drop (l.length - k)

/-- Render a conversation history as the `Player:`/`You:` block used in
the two prompt builders. -/
def historyBlock (history : List Exchange) : String :=
  history.foldl
    (fun acc ex => acc ++ "Player: " ++ ex.query ++ "\n" ++ "You: " ++ ex.response ++ "\n\n")
    ""

/-- `NPC._build_npc_prompt` (npc.py). -/
def build_npc_prompt (npc : Entity) (player_query : String) : String :=
  let is_initial_greeting := player_query = "*You approach the character*"
  let conversation_context :=
    if npc.conversation_history.length = 0 then
      "This is your first interaction with the player."
    else if npc.conversation_history.length < 3 then
      "You\x27ve had a brief conversation with the player already."
    else
      "You\x27ve been having an ongoing conversation with the player."
  let prompt :=
    "\nYou are roleplaying as " ++ npc.name ++
    ", a character in a fantasy roguelike dungeon game.\n\nCharacter details:\n- Name: " ++
    npc.name ++ "\n- Personality: " ++ npc.personality ++ "\n- Description: " ++
    npc.description ++
    "\n\nGame context:\nYou are a character in a dungeon. The player character is an adventurer exploring this dungeon.\n" ++
    conversation_context ++ "\n" ++
    (if ¬is_initial_greeting then ""
     else "The player has just approached you, so greet them appropriately based on your personality.") ++
    "\n\nRespond to the player\x27s query in character, using first person perspective. \nKeep your response concise (1-3 sentences). Stay in character at all times.\nDon\x27t use any markers like \"Character:\" or quotation marks in your response.\nYour personality should strongly influence how you respond.\nMaintain continuity with the previous conversation if applicable.\n\nConversation history:\n"
  let history_to_include := min npc.conversation_history.length 5
  let prompt :=
    if ¬npc.conversation_history.isEmpty then
      prompt ++ historyBlock (pySliceLast npc.conversation_history history_to_include)
    else prompt
  if is_initial_greeting then
    prompt ++ "Player has just approached you.\n" ++ "You: "
  else
    prompt ++ "Player: " ++ player_query ++ "\n" ++ "You: "

/-- The summarization prompt of `NPC._trim_conversation_history`. -/
def npc_summary_prompt (name : String) (older_history : List Exchange) : String :=
  let head :=
    "\nYou are an AI assistant helping to summarize parts of a conversation between a player and \nan NPC named " ++
    name ++
    " in a fantasy roguelike game.\n\nBelow are " ++ toString older_history.length ++
    " conversation exchanges that happened earlier in their conversation.\nPlease create a very concise summary (max 3 sentences) that captures the key points discussed.\n\nConversation to summarize:\n"
  older_history.foldl
    (fun acc ex => acc ++ "Player: " ++ ex.query ++ "\n" ++ "NPC: " ++ ex.response ++ "\n\n")
    head

/-- `NPC._trim_conversation_history` (npc.py lines 110-147).  The
external text-completion capability is the injected `oracle`. -/
def NPC.trim_conversation_history (npc : Entity) (oracle : String → String) : Entity :=
  if npc.conversation_history.length ≤ npc.max_history_length then npc
  else
    let keep_count := floatMul07 npc.max_history_length
    let history_to_keep := pySliceLast npc.conversation_history keep_count
    if npc.conversation_history.length - keep_count > 2 then
      let older_history :=
        npc.conversation_history.take (npc.conversation_history.length - keep_count)
      let summary := oracle (npc_summary_prompt npc.name older_history)
      { npc with conversation_history :=
          { query := "*Earlier conversation*"
            response := "*Summary: " ++ summary ++ "*" } :: history_to_keep }
    else
      { npc with conversation_history := history_to_keep }

/-- `NPC.talk` (npc.py lines 30-56): canned dialogue without a query;
with a query, one text-completion call, history append, and the trim
when the history exceeds its maximum. -/
def NPC.talk (npc : Entity) (player_query : Option String)
    (oracle : String → String) : String × Entity :=
  match player_query with
  | none =>
    if npc.dialogue.isEmpty then ("...", npc)
    else
      let line := npc.dialogue.getD npc.current_dialogue_index ""
      (line, { npc with
        current_dialogue_index := (npc.current_dialogue_index + 1) % npc.dialogue.length })
  | some q =>
    let prompt := build_npc_prompt npc q
    let response := oracle prompt
    let npc := { npc with
      conversation_history := npc.conversation_history ++ [⟨q, response⟩] }
    let npc :=
      if npc.conversation_history.length > npc.max_history_length then
        NPC.trim_conversation_history npc oracle
      else npc
    (response, npc)

/-- `Enemy._build_enemy_prompt` (npc.py). -/
def build_enemy_prompt (e : Entity) (player_query : String) : String :=
  let is_initial_greeting := player_query = "*You approach the enemy*"
  let conversation_context :=
    if e.conversation_history.length = 0 then
      "This is your first interaction with the player."
    else if e.conversation_history.length < 3 then
      "You\x27ve had a brief exchange with the player already."
    else
      "You\x27ve been interacting with the player for some time."
  let prompt :=
    "\nYou are roleplaying as " ++ e.name ++
    ", a hostile enemy creature in a fantasy roguelike dungeon game.\n\nCharacter details:\n- Name: " ++
    e.name ++ "\n- Personality: " ++ e.personality ++ "\n- Behavior: " ++ e.behavior ++
    "\n- Description: " ++ e.description ++ "\n- HP: " ++ toString e.hp ++ "/" ++
    toString e.max_hp ++
    "\n\nGame context:\nYou are an enemy in a dungeon. The player character is an adventurer who has encountered you.\n" ++
    conversation_context ++ "\n" ++
    (if ¬is_initial_greeting then ""
     else "The player has just approached you. Respond with hostility, threats, or curiosity depending on your personality.") ++
    "\n\nRespond to the player\x27s query in character, using first person perspective. \nKeep your response concise (1-3 sentences). Stay in character at all times.\nDon\x27t use any markers like \"Character:\" or quotation marks in your response.\nYour personality and behavior should strongly influence how you respond.\nBe hostile, threatening, or aggressive, but you might also be curious about the player.\nMaintain continuity with the previous conversation if applicable.\n\nConversation history:\n"
  let history_to_include := min e.conversation_history.length 5
  let prompt :=
    if ¬e.conversation_history.isEmpty then
      prompt ++ historyBlock (pySliceLast e.conversation_history history_to_include)
    else prompt
  if is_initial_greeting then
    prompt ++ "Player has just approached you.\n" ++ "You: "
  else
    prompt ++ "Player: " ++ player_query ++ "\n" ++ "You: "

/-- The summarization prompt of `Enemy._trim_conversation_history`. -/
def enemy_summary_prompt (name : String) (older_history : List Exchange) : String :=
  let head :=
    "\nYou are an AI assistant helping to summarize parts of a conversation between a player and \nan enemy named " ++
    name ++
    " in a fantasy roguelike game.\n\nBelow are " ++ toString older_history.length ++
    " conversation exchanges that happened earlier in their conversation.\nPlease create a very concise summary (max 3 sentences) that captures the key points discussed.\n\nConversation to summarize:\n"
  older_history.foldl
    (fun acc ex => acc ++ "Player: " ++ ex.query ++ "\n" ++ "Enemy: " ++ ex.response ++ "\n\n")
    head

/-- `Enemy._trim_conversation_history` (npc.py lines 277-314): verbatim
duplicate of the NPC version apart from the summary prompt wording. -/
def Enemy.trim_conversation_history (e : Entity) (oracle : String → String) : Entity :=
  if e.conversation_history.length ≤ e.max_history_length then e
  else
    let keep_count := floatMul07 e.max_history_length
    let history_to_keep := pySliceLast e.conversation_history keep_count
    if e.conversation_history.length - keep_count > 2 then
      let older_history :=
        e.conversation_history.take (e.conversation_history.length - keep_count)
      let summary := oracle (enemy_summary_prompt e.name older_history)
      { e with conversation_history :=
          { query := "*Earlier conversation*"
            response := "*Summary: " ++ summary ++ "*" } :: history_to_keep }
    else
      { e with conversation_history := history_to_keep }

/-- `Enemy.talk` (npc.py lines 200-220). -/
def Enemy.talk (e : Entity) (player_query : Option String)
    (oracle : String → String) : String × Entity :=
  match player_query with
  | none => ("The enemy growls menacingly.", e)
  | some q =>
    let prompt := build_enemy_prompt e q
    let response := oracle prompt
    let e := { e with
      conversation_history := e.conversation_history ++ [⟨q, response⟩] }
    let e :=
      if e.conversation_history.length > e.max_history_length then
        Enemy.trim_conversation_history e oracle
      else e
    (response, e)

/-- `Entity.move_towards` (entity.py): one greedy step towards the
target, trying the diagonal, then horizontal, then vertical move. -/
def Entity.move_towards (e : Entity) (target_x target_y : Int) (dungeon : Dungeon) :
    Entity × Bool :=
  let dx : Int := if e.x < target_x then 1 else if target_x < e.x then -1 else 0
  let dy : Int := if e.y < target_y then 1 else if target_y < e.y then -1 else 0
  if dx ≠ 0 ∧ dy ≠ 0 ∧ dungeon.is_walkable (e.x + dx) (e.y + dy) then
    ({ e with x := e.x + dx, y := e.y + dy }, true)
  else if dx ≠ 0 ∧ dungeon.is_walkable (e.x + dx) e.y then
    ({ e with x := e.x + dx }, true)
  else if dy ≠ 0 ∧ dungeon.is_walkable e.x (e.y + dy) then
    ({ e with y := e.y + dy }, true)
  else (e, false)

/-- Squared Euclidean distance from an entity to a point.
`Entity.distance_to` computes the float `(dx² + dy²) ** 0.5` and
`Enemy.update` compares it with `detection_range`; since the square root
is exact and monotone here, `distance < range` is embedded as
`distance_sq < range²`. -/
def Entity.distance_sq (e : Entity) (ox oy : Int) : Int :=
  (e.x - ox) ^ 2 + (e.y - oy) ^ 2

/-- `Enemy.update` (npc.py lines 316-344).  `player_dungeon` is
`player.dungeon if hasattr(player, "dungeon") else None`. -/
def Enemy.update (e : Entity) (player_x player_y : Int)
    (player_dungeon : Option Dungeon) (r : Rng) : Entity × Rng :=
  let e := { e with move_cooldown := e.move_cooldown - 1 }
  if e.move_cooldown ≤ (0 : Int) then
    let e := { e with move_cooldown := e.move_cooldown_max }
    if e.distance_sq player_x player_y < e.detection_range ^ 2 then
      match player_dungeon with
      | some dungeon => ((e.move_towards player_x player_y dungeon).1, r)
      | none => (e, r)
    else
      let (dx, r) := randChoice3 r
      let (dy, r) := randChoice3 r
      match player_dungeon with
      | some dungeon =>
        if dungeon.is_walkable (e.x + dx) (e.y + dy) then
          ({ e with x := e.x + dx, y := e.y + dy }, r)
        else (e, r)
      | none => (e, r)
  else (e, r)

/-- `NPC.update` (npc.py lines 149-170): occasional random movement. -/
def NPC.update (npc : Entity) (player_dungeon : Option Dungeon) (r : Rng) :
    Entity × Rng :=
  let npc := { npc with move_cooldown := npc.move_cooldown - 1 }
  if npc.move_cooldown ≤ (0 : Int) then
    let npc := { npc with move_cooldown := npc.move_cooldown_max }
    let (dx, r) := randChoice3 r
    let (dy, r) := randChoice3 r
    match player_dungeon with
    | some dungeon =>
      if dungeon.is_walkable (npc.x + dx) (npc.y + dy) then
        ({ npc with x := npc.x + dx, y := npc.y + dy }, r)
      else (npc, r)
    | none => (npc, r)
  else (npc, r)

/-- Lenient descriptor record: the dict produced by `json.loads` in
`NPCGenerator._extract_json`, restricted to the keys the game reads
(`dict.get(key, default)` is `Option.getD`; a missing key is `none`). -/
structure CharacterData where
  name : Option String := none
  personality : Option String := none
  dialogue : Option (List String) := none
  description : Option String := none
  hp : Option Int := none
  attack : Option Int := none
  behavior : Option String := none
deriving DecidableEq, Repr

/-- The empty dict `{}` that `_extract_json` falls back to. -/
def emptyData : CharacterData := {}

/-- `NPC_PROMPT_TEMPLATE.format(level=level)` (npc_generator.py). -/
def npc_prompt_template (level : Nat) : String :=
  "\nGenerate a unique NPC for a roguelike fantasy dungeon game. The NPC should have:\n- A creative name\n- A distinct unique and interesting personality (3-5 sentences), potentially alien or unusual\n- 3-5 sample dialogue options that reflect their personality\n- A detailed physical description (2-3 sentences) - try to create alien or unique looking NPCs\n\nNPC should be appropriate for dungeon level " ++
  toString level ++
  " (higher level = more exotic/unusual).\n\nThink about the NPC\x27s:\n- Background/origin\n- Motivations and goals\n- Quirks, speech patterns, or mannerisms\n- Emotional state or outlook\n- Relationship to other dungeon dwellers\n\nReturn the result as a JSON object with the following structure:\n\x7b\n  \"name\": \"NPC\x27s name\",\n  \"personality\": \"Detailed description of personality\",\n  \"dialogue\": [\"Dialogue line 1\", \"Dialogue line 2\", \"Dialogue line 3\"],\n  \"description\": \"Physical description\"\n\x7d\n\nBe creative and avoid generic fantasy tropes.\n"

/-- `ENEMY_PROMPT_TEMPLATE.format(level=level)` (npc_generator.py). -/
def enemy_prompt_template (level : Nat) : String :=
  "\nGenerate a unique enemy for a roguelike fantasy game. The enemy should have:\n- A creative name\n- A distinct unique and interesting personality and behavior pattern, potentially alien\n- Combat abilities appropriate for dungeon level " ++
  toString level ++
  " (higher = more powerful)\n- A brief physical description, try to create alien or unique looking enemy\n\nReturn the result as a JSON object with the following structure:\n\x7b\n  \"name\": \"Enemy\x27s name\",\n  \"personality\": \"Brief description of personality/behavior\",\n  \"hp\": number between 10-50 based on level,\n  \"attack\": number between 5-15 based on level,\n  \"description\": \"Physical description\",\n  \"behavior\": \"aggressive\", \"territorial\", \"ambusher\", \"cowardly\", or \"pack\"\n\x7d\n\nBe creative and avoid generic fantasy tropes.\n"

/-- `PHILOSOPHICAL_NPC_PROMPT_TEMPLATE.format(level=level)`. -/
def philosophical_npc_prompt_template (level : Nat) : String :=
  "\nGenerate a unique NPC for a roguelike fantasy dungeon game who is a highly intellectual, philosophical character obsessed with advanced STEM concepts. The NPC should have:\n- A creative name suggesting intellectual brilliance\n- A distinct personality that portrays them as a deep thinker about the cosmos, mathematics, physics, intelligence, and complex philosophical concepts\n- 3-5 sample dialogue options that showcase their intellectual depth, using advanced terminology from mathematics, physics, philosophy of mind, etc.\n- A detailed physical description (2-3 sentences) - they should appear scholarly or otherworldly\n\nNPC should be appropriate for dungeon level " ++
  toString level ++
  " (higher level = more exotic/unusual).\n\nTheir dialogue should reference some of these themes:\n- Complex mathematical theorems or equations (like Riemann hypothesis, P vs NP, etc.)\n- Advanced physics concepts (quantum mechanics, relativity, string theory)\n- Philosophical explorations of consciousness and intelligence\n- Cosmological theories and the nature of reality\n- Profound metaphysical questions\n\nReturn the result as a JSON object with the following structure:\n\x7b\n  \"name\": \"NPC\x27s name\",\n  \"personality\": \"Detailed description of personality\",\n  \"dialogue\": [\"Dialogue line 1\", \"Dialogue line 2\", \"Dialogue line 3\"],\n  \"description\": \"Physical description\"\n\x7d\n\nMake sure the character seems genuinely intellectual rather than pretentious - they should be passionate about knowledge and deep understanding.\n"

/-- `PHILOSOPHICAL_ENEMY_PROMPT_TEMPLATE.format(level=level)`. -/
def philosophical_enemy_prompt_template (level : Nat) : String :=
  "\nGenerate a unique enemy for a roguelike fantasy game who is intellectually sophisticated but hostile. The enemy should have:\n- A creative name suggesting intellectual brilliance and threat\n- A personality portraying them as a being with deep knowledge of advanced STEM/philosophical concepts, but using this knowledge with malicious intent\n- Combat abilities appropriate for dungeon level " ++
  toString level ++
  " (higher = more powerful)\n- A brief physical description that makes them appear scholarly but dangerous\n\nTheir combat approach and personality should reference:\n- Complex mathematical or logical constructs\n- Advanced physics theories or quantum mechanics\n- Philosophical paradoxes or metaphysical concepts\n- Consciousness and intelligence theories\n\nReturn the result as a JSON object with the following structure:\n\x7b\n  \"name\": \"Enemy\x27s name\",\n  \"personality\": \"Brief description of intellectual/philosophical personality\",\n  \"hp\": number between 10-50 based on level,\n  \"attack\": number between 5-15 based on level,\n  \"description\": \"Physical description\",\n  \"behavior\": \"aggressive\", \"territorial\", \"ambusher\", \"cowardly\", or \"pack\"\n\x7d\n\nMake the enemy genuinely intellectual rather than simply pretentious - they should have authentic knowledge but use it for questionable purposes.\n"

/-- `NPCGenerator` (npc_generator.py): in-memory caches of generated
descriptors, the mode flags, and the pregenerated stores loaded from
disk (injected, since file contents are external input).  Dicts are
insertion-ordered association lists, as in CPython. -/
structure NPCGenerator where
  npc_cache : List (String × CharacterData)
  enemy_cache : List (String × CharacterData)
  use_pregenerated : Bool
  save_generated : Bool
  philosophical_mode : Bool
  pregenerated_npcs : List (String × CharacterData)
  pregenerated_enemies : List (String × CharacterData)
deriving DecidableEq, Repr

/-- `NPCGenerator.__init__` with the pregenerated stores injected
(`load_pregenerated_characters` reads them from disk when
`use_pregenerated` is set, and leaves them empty otherwise). -/
def NPCGenerator.make (use_pregenerated : Bool := false) (save_generated : Bool := true)
    (philosophical_mode : Bool := false)
    (loaded_npcs : List (String × CharacterData) := [])
    (loaded_enemies : List (String × CharacterData) := []) : NPCGenerator :=
  { npc_cache := [], enemy_cache := []
    use_pregenerated := use_pregenerated
    save_generated := save_generated
    philosophical_mode := philosophical_mode
    pregenerated_npcs := if use_pregenerated then loaded_npcs else []
    pregenerated_enemies := if use_pregenerated then loaded_enemies else [] }

/-- `NPCGenerator._extract_json`: locate the first `\x7b` and the last
`\x7d`, parse the slice between them with the external JSON library
(injected as `parse`; `none` is a `JSONDecodeError`), and fall back to
the empty dict. -/
def extract_json (parse : String → Option CharacterData) (text : String) : CharacterData :=
  let chars := text.toList
  match chars.findIdx? (· = '\x7b'), chars.reverse.findIdx? (· = '\x7d') with
  | some start_idx, some rev_idx =>
    let end_idx := chars.length - 1 - rev_idx + 1
    if end_idx > start_idx then
      (parse (String.mk ((chars.drop start_idx).take (end_idx - start_idx)))).getD emptyData
    else emptyData
  | _, _ => emptyData

/-- `NPCGenerator._create_npc_from_data`. -/
def create_npc_from_data (npc_data : CharacterData) (level : Nat) : Entity :=
  NPC.make (npc_data.name.getD ("NPC Level " ++ toString level)) 0 0
    (some (npc_data.personality.getD "Mysterious"))
    (some (npc_data.dialogue.getD ["Hello, adventurer."]))
    (some (npc_data.description.getD "A mysterious figure."))

/-- `NPCGenerator._create_enemy_from_data`. -/
def create_enemy_from_data (enemy_data : CharacterData) (level : Nat) : Entity :=
  Enemy.make (enemy_data.name.getD ("Enemy Level " ++ toString level)) 0 0
    (enemy_data.hp.getD (10 + (level : Int) * 5))
    (enemy_data.attack.getD (5 + (level : Int)))
    (some (enemy_data.behavior.getD "aggressive"))
    (some (enemy_data.personality.getD "Hostile"))
    (some (enemy_data.description.getD "A menacing creature."))

/-- `NPCGenerator._create_default_npc`: the deterministic fallback when
generation fails. -/
def create_default_npc (level : Nat) : Entity :=
  NPC.make ("Dungeon Dweller " ++ toString level) 0 0
    (some "Mysterious")
    (some ["Welcome, traveler.",
           "These dungeons hold many secrets.",
           "Be careful as you venture deeper."])
    (some "A cloaked figure with glowing eyes, watching you carefully.")

/-- `NPCGenerator._create_default_enemy`. -/
def create_default_enemy (level : Nat) : Entity :=
  Enemy.make ("Dungeon Monster " ++ toString level) 0 0
    (10 + (level : Int) * 5) (5 + (level : Int))
    (some "aggressive") (some "Hostile")
    (some "A terrifying creature with sharp claws and glowing red eyes.")

/-- `NPCGenerator.generate_npc` (npc_generator.py lines 187-228).  The
text-completion call may raise, so it is injected as
`oracle : String → Except String String`; the `try`/`except` block maps
any error to the default NPC.  `save_characters` only writes files and
does not change the in-memory state. -/
def NPCGenerator.generate_npc (g : NPCGenerator) (level : Nat)
    (oracle : String → Except String String) (parse : String → Option CharacterData)
    (r : Rng) : Entity × NPCGenerator × Rng :=
  let level_key := "npc_level_" ++ toString level
  let level_npcs := g.pregenerated_npcs.filter fun kv => kv.1.startsWith level_key
  if g.use_pregenerated ∧ ¬level_npcs.isEmpty then
    let (v, r) := r.next
    let npc_data := (level_npcs.getD (v % level_npcs.length) ("", emptyData)).2
    (create_npc_from_data npc_data level, g, r)
  else
    let (k, r) := randint 1 10000 r
    let cache_key := "npc_level_" ++ toString level ++ "_" ++ toString k
    match g.npc_cache.lookup cache_key with
    | some npc_data => (create_npc_from_data npc_data level, g, r)
    | none =>
      let prompt :=
        if g.philosophical_mode then philosophical_npc_prompt_template level
        else npc_prompt_template level
      match oracle prompt with
      | Except.error _ => (create_default_npc level, g, r)
      | Except.ok response =>
        let npc_data := extract_json parse response
        let g := { g with npc_cache := g.npc_cache ++ [(cache_key, npc_data)] }
        (create_npc_from_data npc_data level, g, r)

/-- `NPCGenerator.generate_enemy` (npc_generator.py lines 239-280). -/
def NPCGenerator.generate_enemy (g : NPCGenerator) (level : Nat)
    (oracle : String → Except String String) (parse : String → Option CharacterData)
    (r : Rng) : Entity × NPCGenerator × Rng :=
  let level_key := "enemy_level_" ++ toString level
  let level_enemies := g.pregenerated_enemies.filter fun kv => kv.1.startsWith level_key
  if g.use_pregenerated ∧ ¬level_enemies.isEmpty then
    let (v, r) := r.next
    let enemy_data := (level_enemies.getD (v % level_enemies.length) ("", emptyData)).2
    (create_enemy_from_data enemy_data level, g, r)
  else
    let (k, r) := randint 1 10000 r
    let cache_key := "enemy_level_" ++ toString level ++ "_" ++ toString k
    match g.enemy_cache.lookup cache_key with
    | some enemy_data => (create_enemy_from_data enemy_data level, g, r)
    | none =>
      let prompt :=
        if g.philosophical_mode then philosophical_enemy_prompt_template level
        else enemy_prompt_template level
      match oracle prompt with
      | Except.error _ => (create_default_enemy level, g, r)
      | Except.ok response =>
        let enemy_data := extract_json parse response
        let g := { g with enemy_cache := g.enemy_cache ++ [(cache_key, enemy_data)] }
        (create_enemy_from_data enemy_data level, g, r)

/-- `Dungeon.get_random_floor_tile` (dungeon.py): rejection-sample
interior coordinates until walkable.  The Python `while True:` loop is
fuel-indexed; `none` models divergence on a degenerate grid. -/
def get_random_floor_tile (d : Dungeon) : Nat → Rng → Option ((Nat × Nat) × Rng)
  | 0, _ => none
  | fuel + 1, r =>
    let (x, r) := randint 1 (d.width - 2) r
    let (y, r) := randint 1 (d.height - 2) r
    if d.is_walkable (x : Int) (y : Int) then some ((x, y), r)
    else get_random_floor_tile d fuel r

/-- The stairs scan at the top of `populate_entities`: first stairs tile
in x-major order (both Python loops break once one is found). -/
def findStairs (d : Dungeon) : Option (Nat × Nat) :=
  (List.range d.width).findSome? fun x =>
    ((List.range d.height).find? fun y => getTile d.tiles x y == 2).map fun y => (x, y)

/-- The placement condition of `populate_entities`: position clear and
(no stairs, or Chebyshev distance from the stairs above 2). -/
def placementOk (d : Dungeon) (stairs_pos : Option (Nat × Nat)) (x y : Nat) : Bool :=
  d.is_position_clear (x : Int) (y : Int) &&
    match stairs_pos with
    | none => true
    | some sp => ((x : Int) - (sp.1 : Int)).natAbs > 2 || ((y : Int) - (sp.2 : Int)).natAbs > 2

/-- The inner `while True:` position search of `populate_entities`:
draw random floor tiles until one satisfies `placementOk`. -/
def findPlacement (d : Dungeon) (stairs_pos : Option (Nat × Nat)) :
    Nat → Rng → Option ((Nat × Nat) × Rng)
  | 0, _ => none
  | fuel + 1, r =>
    match get_random_floor_tile d (fuel + 1) r with
    | none => none
    | some ((x, y), r) =>
      if placementOk d stairs_pos x y then some ((x, y), r)
      else findPlacement d stairs_pos fuel r

/-- The NPC placement loop of `populate_entities`: `count` characters,
each at a freshly searched position. -/
def placeNpcs (stairs_pos : Option (Nat × Nat)) (level : Nat)
    (oracle : String → Except String String) (parse : String → Option CharacterData)
    (fuel : Nat) :
    Nat → Dungeon → NPCGenerator → Rng → Option (Dungeon × NPCGenerator × Rng)
  | 0, d, g, r => some (d, g, r)
  | count + 1, d, g, r =>
    match findPlacement d stairs_pos fuel r with
    | none => none
    | some ((x, y), r) =>
      let (npc, g, r) := g.generate_npc level oracle parse r
      let npc := { npc with x := (x : Int), y := (y : Int) }
      placeNpcs stairs_pos level oracle parse fuel count
        { d with entities := d.entities ++ [npc], npcs := d.npcs ++ [npc] } g r

/-- The enemy placement loop of `populate_entities`. -/
def placeEnemies (stairs_pos : Option (Nat × Nat)) (level : Nat)
    (oracle : String → Except String String) (parse : String → Option CharacterData)
    (fuel : Nat) :
    Nat → Dungeon → NPCGenerator → Rng → Option (Dungeon × NPCGenerator × Rng)
  | 0, d, g, r => some (d, g, r)
  | count + 1, d, g, r =>
    match findPlacement d stairs_pos fuel r with
    | none => none
    | some ((x, y), r) =>
      let (enemy, g, r) := g.generate_enemy level oracle parse r
      let enemy := { enemy with x := (x : Int), y := (y : Int) }
      placeEnemies stairs_pos level oracle parse fuel count
        { d with entities := d.entities ++ [enemy], enemies := d.enemies ++ [enemy] } g r

/-- `Dungeon.populate_entities` (dungeon.py lines 71-132): clear the
`entities`/`npcs`/`enemies` lists, locate the stairs, then place
`randint(1, 3)` NPCs and `randint(2, 5 + level)` enemies. -/
def populate_entities (d : Dungeon) (g : NPCGenerator) (level : Nat)
    (oracle : String → Except String String) (parse : String → Option CharacterData)
    (fuel : Nat) (r : Rng) : Option (Dungeon × NPCGenerator × Rng) :=
  let d := { d with entities := [], npcs := [], enemies := [] }
  let stairs_pos := findStairs d
  let (num_npcs, r) := randint 1 3 r
  match placeNpcs stairs_pos level oracle parse fuel num_npcs d g r with
  | none => none
  | some (d, g, r) =>
    let (num_enemies, r) := randint 2 (5 + level) r
    placeEnemies stairs_pos level oracle parse fuel num_enemies d g r

/-- The slice of the `Game` object that `_attack_enemy` touches
(game.py): the player, the dungeon, the log and the running flag. -/
structure Game where
  running : Bool
  player : Entity
  dungeon : Dungeon
  current_level : Nat
  game_log : List String
  max_log_size : Nat
deriving DecidableEq, Repr

/-- `Game.add_to_log`: append, then drop the oldest entry if the log
exceeds `max_log_size`. -/
def Game.add_to_log (g : Game) (message : String) : Game :=
  let log := g.game_log ++ [message]
  { g with game_log := if log.length > g.max_log_size then log.drop 1 else log }

/-- `Game._create_direct_path` (game.py lines 153-164): same corridor
carving as `MapGenerator._create_direct_path`, inlined over the
dungeon's tile grid. -/
def Game.create_direct_path (g : Game) (start stop : Nat × Nat) : Game :=
  let t :=
    (List.range' (min start.1 stop.1) (max start.1 stop.1 + 1 - min start.1 stop.1)).foldl
      (fun acc x => setTile acc x start.2 1) g.dungeon.tiles
  let t :=
    (List.range' (min start.2 stop.2) (max start.2 stop.2 + 1 - min start.2 stop.2)).foldl
      (fun acc y => setTile acc stop.1 y 1) t
  { g with dungeon := { g.dungeon with tiles := t } }

/-- `Game._attack_enemy` (game.py lines 497-518): damage the first
adjacent enemy; remove it if its HP drops to 0 or below, otherwise take
the counterattack (which may end the game). -/
def Game.attack_enemy (g : Game) : Game :=
  match g.dungeon.get_adjacent_enemy g.player.x g.player.y with
  | none => g.add_to_log "There\x27s no enemy to attack here."
  | some enemy =>
    let damage := g.player.attack
    let enemy' := { enemy with hp := enemy.hp - damage }
    let g := { g with dungeon := g.dungeon.updateEntity enemy enemy' }
    let g := g.add_to_log
      ("You attack " ++ enemy.name ++ " for " ++ toString damage ++ " damage!")
    if enemy'.hp ≤ (0 : Int) then
      let g := g.add_to_log ("You defeated " ++ enemy.name ++ "!")
      { g with dungeon := g.dungeon.remove_entity enemy' }
    else
      let player_damage := enemy.attack
      let g := { g with player := { g.player with hp := g.player.hp - player_damage } }
      let g := g.add_to_log
        (enemy.name ++ " attacks you for " ++ toString player_damage ++ " damage!")
      if g.player.hp ≤ (0 : Int) then
        let g := g.add_to_log "You have been defeated!"
        { g with running := false }
      else g

/-! ### Grid infrastructure lemmas -/

/-- Well-formedness of a tile grid: `width` columns of `height` cells,
exactly as built by `Dungeon.__init__`. -/
def GridWF (t : Grid) (w h : Nat) : Prop :=
  t.length = w ∧ ∀ row ∈ t, row.length = h

theorem getD_set_self {α : Type} {l : List α} {i : Nat} (h : i < l.length)
    (a d : α) : (l.set i a).getD i d = a := by
  rw [List.getD_eq_getElem?_getD, List.getElem?_set_self h, Option.getD_some]

theorem getD_set_ne {α : Type} {l : List α} {i j : Nat} (h : i ≠ j)
    (a d : α) : (l.set i a).getD j d = l.getD j d := by
  rw [List.getD_eq_getElem?_getD, List.getElem?_set_ne h, ← List.getD_eq_getElem?_getD]

theorem getD_mem {α : Type} {l : List α} {i : Nat} (h : i < l.length) (d : α) :
    l.getD i d ∈ l := by
  rw [List.getD_eq_getElem?_getD, List.getElem?_eq_getElem h, Option.getD_some]
  exact List.getElem_mem h

theorem gridWF_replicate (w h : Nat) : GridWF (List.replicate w (List.replicate h 0)) w h := by
  refine ⟨List.length_replicate _ _, fun row hrow => ?_⟩
  rw [List.eq_of_mem_replicate hrow, List.length_replicate]

theorem gridWF_setTile {t : Grid} {w h : Nat} (hwf : GridWF t w h) (x y v : Nat) :
    GridWF (setTile t x y v) w h := by
  obtain ⟨hlen, hrows⟩ := hwf
  by_cases hxl : x < t.length
  · constructor
    · simpa [setTile] using hlen
    · intro row hrow
      rcases List.mem_or_eq_of_mem_set hrow with hmem | heq
      · exact hrows row hmem
      · subst heq
        rw [List.length_set]
        exact hrows _ (getD_mem hxl _)
  · unfold setTile
    rw [List.set_eq_of_length_le (Nat.le_of_not_lt hxl)]
    exact ⟨hlen, hrows⟩

theorem getTile_setTile_same {t : Grid} {w h : Nat} (hwf : GridWF t w h)
    {x y : Nat} (hx : x < w) (hy : y < h) (v : Nat) :
    getTile (setTile t x y v) x y = v := by
  obtain ⟨hlen, hrows⟩ := hwf
  have hxlen : x < t.length := by omega
  have hrowlen : (t.getD x []).length = h := hrows _ (getD_mem hxlen _)
  unfold getTile setTile
  rw [getD_set_self hxlen, getD_set_self (by omega)]

theorem getTile_setTile_ne {t : Grid} {x y x' y' : Nat}
    (hne : (x', y') ≠ (x, y)) (v : Nat) :
    getTile (setTile t x y v) x' y' = getTile t x' y' := by
  unfold getTile setTile
  by_cases hx : x' = x
  · subst hx
    have hy : y' ≠ y := by simpa [Prod.ext_iff] using hne
    by_cases hxl : x' < t.length
    · rw [getD_set_self hxl, getD_set_ne (fun he => hy he.symm)]
    · rw [List.set_eq_of_length_le (Nat.le_of_not_lt hxl)]
  · rw [getD_set_ne (fun he => hx he.symm)]

theorem getTile_setTile_cases (t : Grid) (a b v x y : Nat) :
    getTile (setTile t a b v) x y = v ∨
      getTile (setTile t a b v) x y = getTile t x y := by
  by_cases hx : x = a
  · subst hx
    by_cases hy : y = b
    · subst hy
      unfold getTile setTile
      by_cases hal : x < t.length
      · rw [getD_set_self hal]
        by_cases hbl : y < (t.getD x []).length
        · rw [getD_set_self hbl]
          exact Or.inl rfl
        · rw [List.set_eq_of_length_le (Nat.le_of_not_lt hbl)]
          exact Or.inr rfl
      · rw [List.set_eq_of_length_le (Nat.le_of_not_lt hal)]
        exact Or.inr rfl
    · exact Or.inr (getTile_setTile_ne (by simp [hy]) v)
  · exact Or.inr (getTile_setTile_ne (by simp [hx]) v)

/-- A batch of writes of one tile value: common abstraction behind the
carve loops. -/
def writeCells (t : Grid) (cells : List (Nat × Nat)) (v : Nat) : Grid :=
  cells.foldl (fun acc c => setTile acc c.1 c.2 v) t

theorem writeCells_nil (t : Grid) (v : Nat) : writeCells t [] v = t := rfl

theorem writeCells_cons (t : Grid) (c : Nat × Nat) (cs : List (Nat × Nat)) (v : Nat) :
    writeCells t (c :: cs) v = writeCells (setTile t c.1 c.2 v) cs v := rfl

theorem writeCells_append (t : Grid) (a b : List (Nat × Nat)) (v : Nat) :
    writeCells t (a ++ b) v = writeCells (writeCells t a v) b v := by
  simp [writeCells, List.foldl_append]

theorem gridWF_writeCells {t : Grid} {w h : Nat} (hwf : GridWF t w h)
    (cs : List (Nat × Nat)) (v : Nat) : GridWF (writeCells t cs v) w h := by
  induction cs generalizing t with
  | nil => exact hwf
  | cons c cs ih => exact ih (gridWF_setTile hwf c.1 c.2 v)

theorem getTile_writeCells_not_mem {t : Grid} {cs : List (Nat × Nat)} {x y : Nat}
    (hmem : (x, y) ∉ cs) (v : Nat) :
    getTile (writeCells t cs v) x y = getTile t x y := by
  induction cs generalizing t with
  | nil => rfl
  | cons c cs ih =>
    rw [writeCells_cons, ih (fun hc => hmem (List.mem_cons_of_mem _ hc))]
    refine getTile_setTile_ne (fun he => hmem ?_) v
    have hc : (x, y) = c := by rw [he]
    rw [hc]
    exact List.mem_cons_self _ _

theorem getTile_writeCells_mem {t : Grid} {w h : Nat} (hwf : GridWF t w h)
    {cs : List (Nat × Nat)} {x y : Nat}
    (hmem : (x, y) ∈ cs) (hx : x < w) (hy : y < h) (v : Nat) :
    getTile (writeCells t cs v) x y = v := by
  induction cs generalizing t with
  | nil => cases hmem
  | cons c cs ih =>
    rw [writeCells_cons]
    by_cases hcs : (x, y) ∈ cs
    · exact ih (gridWF_setTile hwf c.1 c.2 v) hcs
    · have hc : c = (x, y) := by
        rcases List.mem_cons.mp hmem with he | hcs'
        · exact he.symm
        · exact absurd hcs' hcs
      subst hc
      rw [getTile_writeCells_not_mem hcs, getTile_setTile_same hwf hx hy]

theorem getTile_writeCells_cases (t : Grid) (cs : List (Nat × Nat)) (v x y : Nat) :
    getTile (writeCells t cs v) x y = v ∨
      getTile (writeCells t cs v) x y = getTile t x y := by
  induction cs generalizing t with
  | nil => exact Or.inr rfl
  | cons c cs ih =>
    rw [writeCells_cons]
    rcases ih (setTile t c.1 c.2 v) with hv | hsame
    · exact Or.inl hv
    · rw [hsame]
      exact getTile_setTile_cases t c.1 c.2 v x y

/-- Cells of a horizontal tunnel. -/
def hCells (x1 x2 y : Nat) : List (Nat × Nat) :=
  (List.range' (min x1 x2) (max x1 x2 + 1 - min x1 x2)).map fun x => (x, y)

/-- Cells of a vertical tunnel. -/
def vCells (y1 y2 x : Nat) : List (Nat × Nat) :=
  (List.range' (min y1 y2) (max y1 y2 + 1 - min y1 y2)).map fun y => (x, y)

/-- Cells of a carved room interior. -/
def roomCells (room : Room) : List (Nat × Nat) :=
  (List.range' (room.x1 + 1) (room.x2 - (room.x1 + 1))).flatMap fun x =>
    (List.range' (room.y1 + 1) (room.y2 - (room.y1 + 1))).map fun y => (x, y)

theorem carve_h_tunnel_eq_writeCells (t : Grid) (x1 x2 y : Nat) :
    carve_h_tunnel t x1 x2 y = writeCells t (hCells x1 x2 y) 1 := by
  simp [carve_h_tunnel, hCells, writeCells, List.foldl_map]

theorem carve_v_tunnel_eq_writeCells (t : Grid) (y1 y2 x : Nat) :
    carve_v_tunnel t y1 y2 x = writeCells t (vCells y1 y2 x) 1 := by
  simp [carve_v_tunnel, vCells, writeCells, List.foldl_map]

theorem foldl_flatMap {α β γ : Type} (f : γ → α → γ) (g : β → List α)
    (l : List β) (init : γ) :
    (l.flatMap g).foldl f init = l.foldl (fun acc b => (g b).foldl f acc) init := by
  induction l generalizing init with
  | nil => rfl
  | cons b l ih => simp [List.flatMap_cons, List.foldl_append, ih]

theorem carve_room_eq_writeCells (t : Grid) (room : Room) :
    carve_room t room = writeCells t (roomCells room) 1 := by
  simp [carve_room, roomCells, writeCells, foldl_flatMap, List.foldl_map]

theorem create_direct_path_eq_writeCells (t : Grid) (s e : Nat × Nat) :
    create_direct_path t s e =
      writeCells t (hCells s.1 e.1 s.2 ++ vCells s.2 e.2 e.1) 1 := by
  simp [create_direct_path, writeCells_append, carve_h_tunnel_eq_writeCells,
    carve_v_tunnel_eq_writeCells]

theorem mem_hCells {x1 x2 y x' y' : Nat} :
    (x', y') ∈ hCells x1 x2 y ↔ y' = y ∧ min x1 x2 ≤ x' ∧ x' ≤ max x1 x2 := by
  simp only [hCells, List.mem_map, List.mem_range', Prod.mk.injEq]
  constructor
  · rintro ⟨x, ⟨i, hi, hx⟩, hx', hy'⟩
    omega
  · rintro ⟨hy', hlo, hhi⟩
    exact ⟨x', ⟨x' - min x1 x2, by omega, by omega⟩, rfl, hy'.symm⟩

theorem mem_vCells {y1 y2 x x' y' : Nat} :
    (x', y') ∈ vCells y1 y2 x ↔ x' = x ∧ min y1 y2 ≤ y' ∧ y' ≤ max y1 y2 := by
  simp only [vCells, List.mem_map, List.mem_range', Prod.mk.injEq]
  constructor
  · rintro ⟨y, ⟨i, hi, hy⟩, hx', hy'⟩
    omega
  · rintro ⟨hx', hlo, hhi⟩
    exact ⟨y', ⟨y' - min y1 y2, by omega, by omega⟩, hx'.symm, rfl⟩

theorem mem_roomCells {room : Room} {x' y' : Nat} :
    (x', y') ∈ roomCells room ↔
      room.x1 + 1 ≤ x' ∧ x' < room.x2 ∧ room.y1 + 1 ≤ y' ∧ y' < room.y2 := by
  simp only [roomCells, List.mem_flatMap, List.mem_map, List.mem_range', Prod.mk.injEq]
  constructor
  · rintro ⟨x, ⟨i, hi, hx⟩, y, ⟨j, hj, hy⟩, hx', hy'⟩
    omega
  · rintro ⟨hx1, hx2, hy1, hy2⟩
    exact ⟨x', ⟨x' - (room.x1 + 1), by omega, by omega⟩,
      ⟨y', ⟨y' - (room.y1 + 1), by omega, by omega⟩, rfl, rfl⟩⟩

/-! ### Claim C8: walkability bounds check -/

/-- C8: for every dungeon grid and every coordinate with `x` outside
`[0, width)` or `y` outside `[0, height)`, `is_walkable` returns
`false`; moreover for a well-formed grid the bounds check makes the
subsequent `tiles[x][y]` indexing total: whenever the bounds test
passes, both list indices used by the lookup are in range. -/
theorem claim_C8 (d : Dungeon) (x y : Int) :
    ((x < 0 ∨ (d.width : Int) ≤ x ∨ y < 0 ∨ (d.height : Int) ≤ y) →
      d.is_walkable x y = false) ∧
    (GridWF d.tiles d.width d.height →
      0 ≤ x → x < (d.width : Int) → 0 ≤ y → y < (d.height : Int) →
      x.toNat < d.tiles.length ∧ y.toNat < (d.tiles.getD x.toNat []).length) := by
  constructor
  · intro hout
    unfold Dungeon.is_walkable
    rw [if_neg]
    omega
  · rintro ⟨hlen, hrows⟩ hx0 hxw hy0 hyh
    have hxlen : x.toNat < d.tiles.length := by omega
    refine ⟨hxlen, ?_⟩
    have := hrows _ (getD_mem hxlen [])
    omega

/-- Witness for C8 at concrete inputs: a 5×4 all-wall dungeon, the
out-of-bounds coordinate (-1, 2), and in-bounds indexing at (3, 2). -/
theorem claim_C8_witness :
    (Dungeon.init 5 4).is_walkable (-1) 2 = false ∧
      ((3 : Int).toNat < (Dungeon.init 5 4).tiles.length ∧
        (2 : Int).toNat < ((Dungeon.init 5 4).tiles.getD (3 : Int).toNat []).length) :=
  ⟨(claim_C8 (Dungeon.init 5 4) (-1) 2).1 (by decide),
   (claim_C8 (Dungeon.init 5 4) 3 2).2 (by constructor <;> decide)
     (by decide) (by decide) (by decide) (by decide)⟩

/-! ### Claim C7: the 15 HP / 10 attack combat scenario -/

/-- An all-Floor grid for combat scenarios. -/
def floorGrid (w h : Nat) : Grid := List.replicate w (List.replicate h 1)

/-- The adjacent enemy of the C7 scenario: 15 HP, attack 3. -/
def c7Enemy : Entity := Enemy.make "Snarl" 2 3 15 3

/-- The C7 scenario dungeon: 5×5 floor, one enemy at (2, 3). -/
def c7Dungeon : Dungeon :=
  { width := 5, height := 5, tiles := floorGrid 5 5
    entities := [c7Enemy], npcs := [], enemies := [c7Enemy], items := [] }

/-- The C7 scenario game state: player at (2, 2) with attack 10,
adjacent to the enemy. -/
def c7Game : Game :=
  { running := true, player := Player.make "Adventurer" 2 2
    dungeon := c7Dungeon, current_level := 0, game_log := [], max_log_size := 100 }

/-- C7: attacking the adjacent 15 HP enemy with attack power 10 leaves
it at 5 HP in both entity lists (not removed); the second attack brings
it to 5 − 10 = −5 HP and removes it from both the all-entities list and
the enemies list. -/
theorem claim_C7 :
    (c7Game.attack_enemy.dungeon.enemies.map Entity.hp = [5] ∧
     c7Game.attack_enemy.dungeon.entities.map Entity.hp = [5]) ∧
    ((c7Game.attack_enemy.dungeon.get_adjacent_enemy
        c7Game.attack_enemy.player.x c7Game.attack_enemy.player.y).map
        (fun e => e.hp - c7Game.attack_enemy.player.attack) = some (-5)) ∧
    (c7Game.attack_enemy.attack_enemy.dungeon.entities = [] ∧
     c7Game.attack_enemy.attack_enemy.dungeon.enemies = []) := by
  decide

/-! ### Claim C9: killing blows never trigger a counterattack -/

/-- C9: when the player attacks an adjacent enemy, then if the enemy's
HP is at most the player's attack power the enemy is removed from both
the all-entities and enemies lists and the player (in particular the
player's HP) is unchanged; and if the enemy's HP exceeds the attack
power the enemy stays in both lists and the player's HP drops by
exactly the enemy's attack — the counterattack happens exactly when the
enemy survives. -/
theorem add_to_log_player (g : Game) (m : String) : (g.add_to_log m).player = g.player := by
  simp [Game.add_to_log]

theorem add_to_log_dungeon (g : Game) (m : String) : (g.add_to_log m).dungeon = g.dungeon := by
  simp [Game.add_to_log]

theorem remove_entity_enemy_lengths (d : Dungeon) (e : Entity)
    (he : e ∈ d.entities) (heE : e ∈ d.enemies) (ht : e.entity_type = "enemy") :
    (d.remove_entity e).entities.length = d.entities.length - 1 ∧
      (d.remove_entity e).enemies.length = d.enemies.length - 1 := by
  unfold Dungeon.remove_entity
  rw [if_pos he]
  have hnpc : ¬(e.entity_type = "npc" ∧
      e ∈ ({ d with entities := d.entities.erase e } : Dungeon).npcs) := by
    rintro ⟨h, _⟩
    rw [ht] at h
    exact absurd h (by decide)
  rw [if_neg hnpc, if_pos ⟨ht, heE⟩]
  exact ⟨List.length_erase_of_mem he, List.length_erase_of_mem heE⟩

theorem updateEntity_lengths (d : Dungeon) (old new : Entity) :
    (d.updateEntity old new).entities.length = d.entities.length ∧
      (d.updateEntity old new).enemies.length = d.enemies.length := by
  simp [Dungeon.updateEntity]

theorem claim_C9 (g : Game) (enemy : Entity)
    (hadj : g.dungeon.get_adjacent_enemy g.player.x g.player.y = some enemy)
    (htype : enemy.entity_type = "enemy")
    (hmem : enemy ∈ g.dungeon.entities) :
    (enemy.hp ≤ g.player.attack →
      g.attack_enemy.player = g.player ∧
      g.attack_enemy.dungeon.entities.length = g.dungeon.entities.length - 1 ∧
      g.attack_enemy.dungeon.enemies.length = g.dungeon.enemies.length - 1) ∧
    (g.player.attack < enemy.hp →
      g.attack_enemy.player.hp = g.player.hp - enemy.attack ∧
      g.attack_enemy.dungeon.entities.length = g.dungeon.entities.length ∧
      g.attack_enemy.dungeon.enemies.length = g.dungeon.enemies.length) := by
  have hmemE : enemy ∈ g.dungeon.enemies := List.mem_of_find?_eq_some hadj
  have hupd : ∀ l : List Entity, enemy ∈ l →
      ({ enemy with hp := enemy.hp - g.player.attack } : Entity) ∈
        l.map fun e =>
          if e = enemy then { enemy with hp := enemy.hp - g.player.attack } else e := by
    intro l hl
    exact List.mem_map.mpr ⟨enemy, hl, by simp⟩
  have hup := updateEntity_lengths g.dungeon enemy
    { enemy with hp := enemy.hp - g.player.attack }
  constructor
  · intro hkill
    have hhp : enemy.hp - g.player.attack ≤ (0 : Int) := by omega
    have hrem := remove_entity_enemy_lengths
      (g.dungeon.updateEntity enemy { enemy with hp := enemy.hp - g.player.attack })
      { enemy with hp := enemy.hp - g.player.attack }
      (hupd _ hmem) (hupd _ hmemE) htype
    simp only [Game.attack_enemy, hadj]
    simp only [Game.add_to_log]
    simp only [hhp, if_true, reduceIte]
    refine ⟨trivial, ?_, ?_⟩
    · rw [hrem.1, hup.1]
    · rw [hrem.2, hup.2]
  · intro hsurvive
    have hhp : ¬(enemy.hp - g.player.attack ≤ (0 : Int)) := by omega
    simp only [Game.attack_enemy, hadj]
    simp only [Game.add_to_log]
    simp only [hhp, if_false, reduceIte]
    constructor
    · split <;> rfl
    · constructor
      · split <;> (rw [hup.1])
      · split <;> (rw [hup.2])

/-! ### Bounds for the exact float model of `int(n * 0.7)` -/

theorem rne_bounds (p : Nat) {e : Nat} (he : 1 ≤ e) :
    p ≤ roundNearestEven p e * 2 ^ e + 2 ^ (e - 1) ∧
      roundNearestEven p e * 2 ^ e ≤ p + 2 ^ (e - 1) := by
  have he0 : e ≠ 0 := by omega
  have hpow : 2 ^ e = 2 ^ (e - 1) * 2 := by
    rw [← pow_succ]
    congr 1
    omega
  unfold roundNearestEven
  rw [if_neg he0]
  have hdm := Nat.div_add_mod p (2 ^ e)
  have hRlt : p % 2 ^ e < 2 ^ e := Nat.mod_lt _ (by positivity)
  have hq1 : (p / 2 ^ e + 1) * 2 ^ e = 2 ^ e * (p / 2 ^ e) + 2 ^ e := by ring
  have hq0 : p / 2 ^ e * 2 ^ e = 2 ^ e * (p / 2 ^ e) := by ring
  dsimp only
  split_ifs <;> omega

theorem round53_bounds (p : Nat) :
    round53 p * 2 ^ 53 ≤ p * 2 ^ 53 + p ∧
      p * 2 ^ 53 ≤ round53 p * 2 ^ 53 + p := by
  unfold round53
  split_ifs with h
  · omega
  · push_neg at h
    have hp0 : p ≠ 0 := by positivity
    have hlog : 53 ≤ Nat.log2 p := (Nat.le_log2 hp0).mpr h
    have hself : 2 ^ Nat.log2 p ≤ p := Nat.log2_self_le hp0
    have hs1 : 1 ≤ Nat.log2 p + 1 - 53 := by omega
    have hpow : 2 ^ (Nat.log2 p + 1 - 53 - 1) * 2 ^ 53 = 2 ^ Nat.log2 p := by
      rw [← pow_add]
      congr 1
      omega
    obtain ⟨hlo, hhi⟩ := rne_bounds p hs1
    constructor
    · calc roundNearestEven p (Nat.log2 p + 1 - 53) * 2 ^ (Nat.log2 p + 1 - 53) * 2 ^ 53
          ≤ (p + 2 ^ (Nat.log2 p + 1 - 53 - 1)) * 2 ^ 53 := mul_le_mul_right' hhi _
        _ = p * 2 ^ 53 + 2 ^ (Nat.log2 p + 1 - 53 - 1) * 2 ^ 53 := by ring
        _ = p * 2 ^ 53 + 2 ^ Nat.log2 p := by rw [hpow]
        _ ≤ p * 2 ^ 53 + p := by omega
    · calc p * 2 ^ 53
          ≤ (roundNearestEven p (Nat.log2 p + 1 - 53) * 2 ^ (Nat.log2 p + 1 - 53) +
              2 ^ (Nat.log2 p + 1 - 53 - 1)) * 2 ^ 53 := mul_le_mul_right' hlo _
        _ = roundNearestEven p (Nat.log2 p + 1 - 53) * 2 ^ (Nat.log2 p + 1 - 53) * 2 ^ 53 +
              2 ^ (Nat.log2 p + 1 - 53 - 1) * 2 ^ 53 := by ring
        _ = roundNearestEven p (Nat.log2 p + 1 - 53) * 2 ^ (Nat.log2 p + 1 - 53) * 2 ^ 53 +
              2 ^ Nat.log2 p := by rw [hpow]
        _ ≤ roundNearestEven p (Nat.log2 p + 1 - 53) * 2 ^ (Nat.log2 p + 1 - 53) * 2 ^ 53 +
              p := by omega

/-- The trim keep count `int(n * 0.7)` is always below `n`: the retained
tail is strictly shorter than the configured maximum. -/
theorem floatMul07_lt (n : Nat) (hn : 1 ≤ n) : floatMul07 n < n := by
  unfold floatMul07
  rw [Nat.div_lt_iff_lt_mul (by positivity)]
  by_contra hge
  push_neg at hge
  obtain ⟨hF, _⟩ := round53_bounds (round53 n * mant07)
  obtain ⟨hn53, _⟩ := round53_bounds n
  unfold mant07 at *
  omega

/-- For `n ≥ 2` the trim keep count `int(n * 0.7)` is at least 1, so the
Python slice `history[-keep:]` really takes a tail. -/
theorem floatMul07_pos (n : Nat) (hn : 2 ≤ n) : 1 ≤ floatMul07 n := by
  unfold floatMul07
  rw [Nat.le_div_iff_mul_le (by positivity)]
  by_contra hlt
  push_neg at hlt
  obtain ⟨_, hF⟩ := round53_bounds (round53 n * mant07)
  obtain ⟨hn53u, hn53l⟩ := round53_bounds n
  unfold mant07 at *
  omega

/-- For maxima up to `2 ^ 52` the float keep count stays below the
ideal ceiling: `10 * int(n * 0.7) ≤ 7n + 9`. -/
theorem floatMul07_le_ceil (n : Nat) (hn : n ≤ 2 ^ 52) :
    10 * floatMul07 n ≤ 7 * n + 9 := by
  have hn53 : round53 n = n := by
    unfold round53
    rw [if_pos (by omega)]
  unfold floatMul07
  rw [hn53]
  obtain ⟨hF, _⟩ := round53_bounds (n * mant07)
  have hq : round53 (n * mant07) / 2 ^ 52 * 2 ^ 52 ≤ round53 (n * mant07) :=
    Nat.div_mul_le_self _ _
  unfold mant07 at *
  omega

/-! ### Conversation history lemmas and claims C4, C5 -/

theorem pySliceLast_of_ne_zero {α : Type} (l : List α) {k : Nat} (hk : k ≠ 0) :
    pySliceLast l k = l.drop (l.length - k) := by
  simp [pySliceLast, hk]

/-- Exact shape of the NPC trim result when the history exceeds a
maximum of at least 2. -/
theorem NPC_trim_spec (c : Entity) (oracle : String → String)
    (h2 : 2 ≤ c.max_history_length)
    (hlen : c.max_history_length < c.conversation_history.length) :
    (NPC.trim_conversation_history c oracle).conversation_history =
      (if 2 < c.conversation_history.length - floatMul07 c.max_history_length then
        [⟨"*Earlier conversation*",
          "*Summary: " ++
            oracle (npc_summary_prompt c.name
              (c.conversation_history.take
                (c.conversation_history.length - floatMul07 c.max_history_length))) ++
            "*"⟩]
      else []) ++
        c.conversation_history.drop
          (c.conversation_history.length - floatMul07 c.max_history_length) ∧
    (NPC.trim_conversation_history c oracle).max_history_length = c.max_history_length := by
  have hk0 : floatMul07 c.max_history_length ≠ 0 := by
    have := floatMul07_pos c.max_history_length h2
    omega
  unfold NPC.trim_conversation_history
  rw [if_neg (by omega)]
  dsimp only
  rw [pySliceLast_of_ne_zero _ hk0]
  split_ifs with hb
  · exact ⟨by simp, rfl⟩
  · exact ⟨by simp, rfl⟩

/-- Exact shape of the Enemy trim result (duplicate of the NPC one with
the enemy summary prompt). -/
theorem Enemy_trim_spec (c : Entity) (oracle : String → String)
    (h2 : 2 ≤ c.max_history_length)
    (hlen : c.max_history_length < c.conversation_history.length) :
    (Enemy.trim_conversation_history c oracle).conversation_history =
      (if 2 < c.conversation_history.length - floatMul07 c.max_history_length then
        [⟨"*Earlier conversation*",
          "*Summary: " ++
            oracle (enemy_summary_prompt c.name
              (c.conversation_history.take
                (c.conversation_history.length - floatMul07 c.max_history_length))) ++
            "*"⟩]
      else []) ++
        c.conversation_history.drop
          (c.conversation_history.length - floatMul07 c.max_history_length) ∧
    (Enemy.trim_conversation_history c oracle).max_history_length = c.max_history_length := by
  have hk0 : floatMul07 c.max_history_length ≠ 0 := by
    have := floatMul07_pos c.max_history_length h2
    omega
  unfold Enemy.trim_conversation_history
  rw [if_neg (by omega)]
  dsimp only
  rw [pySliceLast_of_ne_zero _ hk0]
  split_ifs with hb
  · exact ⟨by simp, rfl⟩
  · exact ⟨by simp, rfl⟩

theorem NPC_trim_length (c : Entity) (oracle : String → String)
    (h2 : 2 ≤ c.max_history_length)
    (hlen : c.max_history_length < c.conversation_history.length) :
    (NPC.trim_conversation_history c oracle).conversation_history.length ≤
      floatMul07 c.max_history_length + 1 := by
  obtain ⟨hspec, -⟩ := NPC_trim_spec c oracle h2 hlen
  have hklt := floatMul07_lt c.max_history_length (by omega)
  rw [hspec]
  rw [List.length_append, List.length_drop]
  split_ifs <;> simp <;> omega

theorem Enemy_trim_length (c : Entity) (oracle : String → String)
    (h2 : 2 ≤ c.max_history_length)
    (hlen : c.max_history_length < c.conversation_history.length) :
    (Enemy.trim_conversation_history c oracle).conversation_history.length ≤
      floatMul07 c.max_history_length + 1 := by
  obtain ⟨hspec, -⟩ := Enemy_trim_spec c oracle h2 hlen
  have hklt := floatMul07_lt c.max_history_length (by omega)
  rw [hspec]
  rw [List.length_append, List.length_drop]
  split_ifs <;> simp <;> omega

theorem NPC_talk_invariant (c : Entity) (oracle : String → String) (q : Option String)
    (h2 : 2 ≤ c.max_history_length)
    (hinv : c.conversation_history.length ≤ c.max_history_length) :
    ((NPC.talk c q oracle).2).conversation_history.length ≤ c.max_history_length ∧
      ((NPC.talk c q oracle).2).max_history_length = c.max_history_length := by
  match q with
  | none =>
    unfold NPC.talk
    dsimp only
    split_ifs <;> exact ⟨hinv, rfl⟩
  | some qs =>
    unfold NPC.talk
    dsimp only
    simp only [List.length_append, List.length_singleton]
    split_ifs with hover
    · constructor
      · have hlt := NPC_trim_length
          { c with conversation_history :=
              c.conversation_history ++ [⟨qs, oracle (build_npc_prompt c qs)⟩] }
          oracle h2 (by simpa using hover)
        simp only [List.length_append, List.length_singleton] at hlt
        have hklt := floatMul07_lt c.max_history_length (by omega)
        omega
      · exact (NPC_trim_spec
          { c with conversation_history :=
              c.conversation_history ++ [⟨qs, oracle (build_npc_prompt c qs)⟩] }
          oracle h2 (by simpa using hover)).2
    · refine ⟨?_, rfl⟩
      simp only [List.length_append, List.length_singleton]
      omega

theorem Enemy_talk_invariant (c : Entity) (oracle : String → String) (q : Option String)
    (h2 : 2 ≤ c.max_history_length)
    (hinv : c.conversation_history.length ≤ c.max_history_length) :
    ((Enemy.talk c q oracle).2).conversation_history.length ≤ c.max_history_length ∧
      ((Enemy.talk c q oracle).2).max_history_length = c.max_history_length := by
  match q with
  | none => exact ⟨hinv, rfl⟩
  | some qs =>
    unfold Enemy.talk
    dsimp only
    simp only [List.length_append, List.length_singleton]
    split_ifs with hover
    · constructor
      · have hlt := Enemy_trim_length
          { c with conversation_history :=
              c.conversation_history ++ [⟨qs, oracle (build_enemy_prompt c qs)⟩] }
          oracle h2 (by simpa using hover)
        simp only [List.length_append, List.length_singleton] at hlt
        have hklt := floatMul07_lt c.max_history_length (by omega)
        omega
      · exact (Enemy_trim_spec
          { c with conversation_history :=
              c.conversation_history ++ [⟨qs, oracle (build_enemy_prompt c qs)⟩] }
          oracle h2 (by simpa using hover)).2
    · refine ⟨?_, rfl⟩
      simp only [List.length_append, List.length_singleton]
      omega

theorem NPC_talkFold_le (oracle : String → String) (queries : List (Option String)) :
    ∀ c : Entity, 2 ≤ c.max_history_length →
      c.conversation_history.length ≤ c.max_history_length →
      ((queries.foldl (fun n q => (NPC.talk n q oracle).2) c).conversation_history.length ≤
          c.max_history_length ∧
        (queries.foldl (fun n q => (NPC.talk n q oracle).2) c).max_history_length =
          c.max_history_length) := by
  induction queries with
  | nil => exact fun c _ hinv => ⟨hinv, rfl⟩
  | cons q qs ih =>
    intro c h2 hinv
    obtain ⟨hlen1, hmax1⟩ := NPC_talk_invariant c oracle q h2 hinv
    obtain ⟨hlen2, hmax2⟩ := ih ((NPC.talk c q oracle).2) (by omega) (by omega)
    rw [List.foldl_cons]
    exact ⟨by omega, by omega⟩

theorem Enemy_talkFold_le (oracle : String → String) (queries : List (Option String)) :
    ∀ c : Entity, 2 ≤ c.max_history_length →
      c.conversation_history.length ≤ c.max_history_length →
      ((queries.foldl (fun n q => (Enemy.talk n q oracle).2) c).conversation_history.length ≤
          c.max_history_length ∧
        (queries.foldl (fun n q => (Enemy.talk n q oracle).2) c).max_history_length =
          c.max_history_length) := by
  induction queries with
  | nil => exact fun c _ hinv => ⟨hinv, rfl⟩
  | cons q qs ih =>
    intro c h2 hinv
    obtain ⟨hlen1, hmax1⟩ := Enemy_talk_invariant c oracle q h2 hinv
    obtain ⟨hlen2, hmax2⟩ := ih ((Enemy.talk c q oracle).2) (by omega) (by omega)
    rw [List.foldl_cons]
    exact ⟨by omega, by omega⟩

/-- C4 counterexample: with configured maximum `N = 1` (allowed by the
`max_history_length` parameter), two `talk` calls leave the history at
length 2 > N — the trim keep count `int(1 * 0.7)` is 0 and the Python
slice `history[-0:]` keeps the whole list, so the claimed bound fails. -/
theorem claim_C4_counterexample :
    ((NPC.talk
        ((NPC.talk (NPC.make "Tiny" 0 0 none none none 1) (some "a") (fun _ => "ok")).2)
        (some "b") (fun _ => "ok")).2).conversation_history.length = 2 ∧
      ¬((NPC.talk
          ((NPC.talk (NPC.make "Tiny" 0 0 none none none 1) (some "a") (fun _ => "ok")).2)
          (some "b") (fun _ => "ok")).2).conversation_history.length ≤ 1 := by
  constructor
  · decide
  · decide

/-- C4 (amended): for every configured maximum `N ≥ 2` — the bound
fails for `N ≤ 1`, see the counterexample — and every sequence of talk
calls, the conversation history length of an NPC or an enemy never
exceeds `N`; every run of the trim step on any over-long character
(history longer than its maximum `N ≥ 2`) leaves at most
`int(0.7 × N) + 1` entries, which for `N ≤ 2 ^ 52` is at most
`⌈0.7 × N⌉ + 1`. -/
theorem claim_C4 (c : Entity) (oracle : String → String) (queries : List (Option String))
    (h2 : 2 ≤ c.max_history_length)
    (hinv : c.conversation_history.length ≤ c.max_history_length) :
    ((queries.foldl (fun n q => (NPC.talk n q oracle).2) c).conversation_history.length ≤
        c.max_history_length ∧
      (queries.foldl (fun n q => (Enemy.talk n q oracle).2) c).conversation_history.length ≤
        c.max_history_length) ∧
    (∀ c' : Entity, 2 ≤ c'.max_history_length →
      c'.max_history_length < c'.conversation_history.length →
      (NPC.trim_conversation_history c' oracle).conversation_history.length ≤
          floatMul07 c'.max_history_length + 1 ∧
        (Enemy.trim_conversation_history c' oracle).conversation_history.length ≤
          floatMul07 c'.max_history_length + 1) ∧
    (∀ N : Nat, N ≤ 2 ^ 52 →
      floatMul07 N + 1 ≤ (7 * N + 9) / 10 + 1) := by
  refine ⟨⟨(NPC_talkFold_le oracle queries c h2 hinv).1,
    (Enemy_talkFold_le oracle queries c h2 hinv).1⟩,
    fun c' h2' hover => ⟨?_, ?_⟩, fun N hle => ?_⟩
  · exact NPC_trim_length c' oracle h2' hover
  · exact Enemy_trim_length c' oracle h2' hover
  · have := floatMul07_le_ceil N hle
    omega

/-- An NPC holding 11 exchanges against a configured maximum of 10: the
trim step genuinely runs on it. -/
def c4Wren : Entity :=
  { NPC.make "Wren" 0 0 none none none 10 with
      conversation_history := List.replicate 11 ⟨"q", "r"⟩ }

/-- Witness for C4 at concrete inputs: maximum 10 with six talk calls on
a fresh NPC for the running bound, and a character holding 11 exchanges
against a maximum of 10 for a real (non-vacuous) run of both the NPC
and the Enemy trim. -/
theorem claim_C4_witness :
    (((List.replicate 6 (some "hi")).foldl
        (fun n q => (NPC.talk n q (fun _ => "ok")).2)
        (NPC.make "Mira" 0 0 none none none 10)).conversation_history.length ≤ 10 ∧
      ((List.replicate 6 (some "hi")).foldl
        (fun n q => (Enemy.talk n q (fun _ => "ok")).2)
        (NPC.make "Mira" 0 0 none none none 10)).conversation_history.length ≤ 10) ∧
    (2 ≤ c4Wren.max_history_length ∧
      c4Wren.max_history_length < c4Wren.conversation_history.length) ∧
    ((NPC.trim_conversation_history c4Wren
        (fun _ => "ok")).conversation_history.length ≤
          floatMul07 c4Wren.max_history_length + 1 ∧
      (Enemy.trim_conversation_history c4Wren
        (fun _ => "ok")).conversation_history.length ≤
          floatMul07 c4Wren.max_history_length + 1) ∧
    floatMul07 10 + 1 ≤ (7 * 10 + 9) / 10 + 1 := by
  have h := claim_C4 (NPC.make "Mira" 0 0 none none none 10) (fun _ => "ok")
    (List.replicate 6 (some "hi")) (by decide) (by decide)
  exact ⟨h.1, ⟨by decide, by decide⟩,
    h.2.1 c4Wren (by decide) (by decide),
    h.2.2 10 (by decide)⟩

/-- C5 (amended): when the trim runs on a history longer than the
maximum `N ≥ 2`, the most recent `int(0.7 × N)` exchanges are retained
verbatim (the tail of the original history, of exactly that length);
with more than 2 older exchanges they are replaced by the single
synthetic exchange with query `"*Earlier conversation*"` and response
`"*Summary: <generated summary>*"` (capitalised, unlike the claimed
lower-case strings) prepended to the retained tail, the summary coming
from one text-completion call on the prompt built from the discarded
exchanges; with at most 2 discardable exchanges the older entries are
dropped without summarizing.  This holds for both the NPC and the Enemy
trim. -/
theorem claim_C5 (c : Entity) (oracle : String → String)
    (h2 : 2 ≤ c.max_history_length)
    (hlen : c.max_history_length < c.conversation_history.length) :
    ((c.conversation_history.drop
        (c.conversation_history.length - floatMul07 c.max_history_length)).length =
      floatMul07 c.max_history_length) ∧
    (2 < c.conversation_history.length - floatMul07 c.max_history_length →
      (NPC.trim_conversation_history c oracle).conversation_history =
        ⟨"*Earlier conversation*",
         "*Summary: " ++
           oracle (npc_summary_prompt c.name
             (c.conversation_history.take
               (c.conversation_history.length - floatMul07 c.max_history_length))) ++
           "*"⟩ ::
          c.conversation_history.drop
            (c.conversation_history.length - floatMul07 c.max_history_length) ∧
      (Enemy.trim_conversation_history c oracle).conversation_history =
        ⟨"*Earlier conversation*",
         "*Summary: " ++
           oracle (enemy_summary_prompt c.name
             (c.conversation_history.take
               (c.conversation_history.length - floatMul07 c.max_history_length))) ++
           "*"⟩ ::
          c.conversation_history.drop
            (c.conversation_history.length - floatMul07 c.max_history_length)) ∧
    (c.conversation_history.length - floatMul07 c.max_history_length ≤ 2 →
      (NPC.trim_conversation_history c oracle).conversation_history =
        c.conversation_history.drop
          (c.conversation_history.length - floatMul07 c.max_history_length) ∧
      (Enemy.trim_conversation_history c oracle).conversation_history =
        c.conversation_history.drop
          (c.conversation_history.length - floatMul07 c.max_history_length)) := by
  have hklt := floatMul07_lt c.max_history_length (by omega)
  obtain ⟨hnpc, -⟩ := NPC_trim_spec c oracle h2 hlen
  obtain ⟨hene, -⟩ := Enemy_trim_spec c oracle h2 hlen
  refine ⟨?_, fun hgt => ?_, fun hle => ?_⟩
  · rw [List.length_drop]
    omega
  · rw [hnpc, hene]
    simp only [if_pos hgt, List.singleton_append]
    exact ⟨trivial, trivial⟩
  · rw [hnpc, hene]
    simp only [if_neg (show ¬2 < c.conversation_history.length -
        floatMul07 c.max_history_length by omega), List.nil_append]
    exact ⟨trivial, trivial⟩

/-- An NPC (default maximum 10) with 11 recorded exchanges, as after an
eleventh `talk`: the trim fires with 4 discardable exchanges. -/
def c5Npc : Entity :=
  { NPC.make "Mira" with conversation_history := List.replicate 11 ⟨"q", "r"⟩ }

/-- C5 counterexample: the synthetic exchange the code produces is
`{"*Earlier conversation*", "*Summary: ...*"}` with capital letters,
not the claimed `"*earlier conversation*"` / `"*summary: ...*"`: at a
concrete trim run the head query differs from the claimed string. -/
theorem claim_C5_counterexample :
    ((NPC.trim_conversation_history c5Npc (fun _ => "S")).conversation_history.head?.map
        Exchange.query = some "*Earlier conversation*") ∧
      ((NPC.trim_conversation_history c5Npc
          (fun _ => "S")).conversation_history.head?.map Exchange.query ≠
        some "*earlier conversation*") := by
  have hk1 := floatMul07_pos 10 (by norm_num)
  have hk2 := floatMul07_le_ceil 10 (by norm_num)
  have hlen11 : c5Npc.conversation_history.length = 11 := by decide
  have hmax10 : c5Npc.max_history_length = 10 := by decide
  obtain ⟨hspec, -⟩ := NPC_trim_spec c5Npc (fun _ => "S") (by decide) (by decide)
  rw [hlen11, hmax10] at hspec
  rw [hspec, if_pos (by omega), List.singleton_append]
  constructor
  · simp
  · simp

/-- Witness for C5: the summarizing branch at the concrete NPC with 11
exchanges and maximum 10. -/
theorem claim_C5_witness :
    (NPC.trim_conversation_history c5Npc (fun _ => "S")).conversation_history =
      ⟨"*Earlier conversation*",
       "*Summary: " ++
         (fun _ => "S") (npc_summary_prompt c5Npc.name
           (c5Npc.conversation_history.take
             (c5Npc.conversation_history.length - floatMul07 c5Npc.max_history_length))) ++
         "*"⟩ ::
        c5Npc.conversation_history.drop
          (c5Npc.conversation_history.length - floatMul07 c5Npc.max_history_length) :=
  ((claim_C5 c5Npc (fun _ => "S") (by decide) (by decide)).2.1 (by
    have hk2 := floatMul07_le_ceil 10 (by norm_num)
    have hlen11 : c5Npc.conversation_history.length = 11 := by decide
    have hmax10 : c5Npc.max_history_length = 10 := by decide
    rw [hlen11, hmax10]
    omega)).1

/-! ### Claim C6: generation falls back to the default NPC on errors -/

/-- C6: if the text-completion capability raises on every call, then
`generate_npc` on a generator that is not using pregenerated data (and
whose in-memory cache is empty, as on a fresh generator — entries only
ever arise from successful calls) returns the fixed default NPC, whose
name starts with "Dungeon Dweller"; the `try`/`except` translation
means no exception escapes: `generate_npc` is total and yields exactly
the default descriptor. -/
theorem claim_C6 (g : NPCGenerator) (level : Nat) (r : Rng)
    (oracle : String → Except String String) (parse : String → Option CharacterData)
    (hpre : g.use_pregenerated = false)
    (hcache : g.npc_cache = [])
    (herr : ∀ p, ∃ e, oracle p = Except.error e) :
    (g.generate_npc level oracle parse r).1 = create_default_npc level ∧
      (g.generate_npc level oracle parse r).1.name =
        "Dungeon Dweller " ++ toString level ∧
      ∃ rest, (g.generate_npc level oracle parse r).1.name = "Dungeon Dweller" ++ rest := by
  have hdef : (g.generate_npc level oracle parse r).1 = create_default_npc level := by
    unfold NPCGenerator.generate_npc
    simp only [hpre, Bool.false_eq_true, false_and, if_false, hcache]
    obtain ⟨e, he⟩ := herr
      (if g.philosophical_mode then philosophical_npc_prompt_template level
       else npc_prompt_template level)
    rw [List.lookup_nil, he]
  refine ⟨hdef, ?_, ?_⟩
  · rw [hdef]
    rfl
  · rw [hdef]
    refine ⟨" " ++ toString level, ?_⟩
    show "Dungeon Dweller " ++ toString level = "Dungeon Dweller" ++ (" " ++ toString level)
    rw [← String.append_assoc]
    congr 1

/-- Witness for C6: a fresh generator, level 1, an oracle that always
raises. -/
theorem claim_C6_witness :
    ((NPCGenerator.make false).generate_npc 1
        (fun _ => Except.error "offline") (fun _ => none) ⟨fun _ => 0, 0⟩).1 =
      create_default_npc 1 ∧
    ((NPCGenerator.make false).generate_npc 1
        (fun _ => Except.error "offline") (fun _ => none) ⟨fun _ => 0, 0⟩).1.name =
      "Dungeon Dweller " ++ toString 1 ∧
    ∃ rest,
      ((NPCGenerator.make false).generate_npc 1
          (fun _ => Except.error "offline") (fun _ => none) ⟨fun _ => 0, 0⟩).1.name =
        "Dungeon Dweller" ++ rest :=
  claim_C6 (NPCGenerator.make false) 1 ⟨fun _ => 0, 0⟩
    (fun _ => Except.error "offline") (fun _ => none)
    rfl rfl (fun _ => ⟨"offline", rfl⟩)

/-- The C9 witness enemy: 5 HP, killed by one 10-damage blow. -/
def c9Enemy : Entity := Enemy.make "Gnash" 1 1 5 2

/-- The C9 witness dungeon and game state. -/
def c9Game : Game :=
  { running := true, player := Player.make "Adventurer" 2 2
    dungeon :=
      { width := 5, height := 5, tiles := floorGrid 5 5
        entities := [c9Enemy], npcs := [], enemies := [c9Enemy], items := [] }
    current_level := 0, game_log := [], max_log_size := 100 }

/-- Witness for C9: a killing blow at a concrete state removes the
enemy and leaves the player untouched. -/
theorem claim_C9_witness :
    c9Game.attack_enemy.player = c9Game.player ∧
      c9Game.attack_enemy.dungeon.entities.length = c9Game.dungeon.entities.length - 1 ∧
      c9Game.attack_enemy.dungeon.enemies.length = c9Game.dungeon.enemies.length - 1 :=
  (claim_C9 c9Game c9Enemy (by decide) (by decide) (by decide)).1 (by decide)

/-! ### Reachability: the connectivity notion of the specification -/

/-- Four-directional adjacency of grid positions. -/
def Adj (p q : Int × Int) : Prop :=
  (q.1 = p.1 + 1 ∧ q.2 = p.2) ∨ (q.1 = p.1 - 1 ∧ q.2 = p.2) ∨
    (q.1 = p.1 ∧ q.2 = p.2 + 1) ∨ (q.1 = p.1 ∧ q.2 = p.2 - 1)

/-- A walkable path through the dungeon: the reflexive closure of steps
to 4-adjacent walkable cells, exactly what `_verify_path`'s BFS
explores (the start cell itself is never tested, matching the BFS). -/
inductive Reachable (d : Dungeon) (start : Int × Int) : (Int × Int) → Prop
  | refl : Reachable d start start
  | step {p q : Int × Int} : Reachable d start p → Adj p q →
      d.is_walkable q.1 q.2 = true → Reachable d start q

theorem Reachable.trans {d : Dungeon} {a b c : Int × Int}
    (h1 : Reachable d a b) (h2 : Reachable d b c) : Reachable d a c := by
  induction h2 with
  | refl => exact h1
  | step _ hadj hwalk ih => exact Reachable.step ih hadj hwalk

/-- Walkability is monotone under adding walkable cells, hence so is
reachability. -/
theorem Reachable.mono {d d' : Dungeon} {a b : Int × Int}
    (hmono : ∀ x y : Int, d.is_walkable x y = true → d'.is_walkable x y = true)
    (h : Reachable d a b) : Reachable d' a b := by
  induction h with
  | refl => exact Reachable.refl
  | step _ hadj hwalk ih => exact Reachable.step ih hadj (hmono _ _ hwalk)

/-- A generation-time dungeon: the given tile grid, no entities. -/
def genDungeon (width height : Nat) (t : Grid) : Dungeon :=
  { width := width, height := height, tiles := t
    entities := [], npcs := [], enemies := [], items := [] }

/-- Walkability over a generation-time dungeon is exactly the tile
predicate. -/
theorem genDungeon_is_walkable (width height : Nat) (t : Grid) (x y : Int) :
    (genDungeon width height t).is_walkable x y =
      ((0 ≤ x ∧ x < (width : Int) ∧ 0 ≤ y ∧ y < (height : Int)) ∧
        (getTile t x.toNat y.toNat = 1 ∨ getTile t x.toNat y.toNat = 2) : Bool) := by
  unfold Dungeon.is_walkable genDungeon
  dsimp only
  by_cases hb : 0 ≤ x ∧ x < (width : Int) ∧ 0 ≤ y ∧ y < (height : Int)
  · rw [if_pos hb]
    by_cases ht : getTile t x.toNat y.toNat = 1 ∨ getTile t x.toNat y.toNat = 2
    · rw [if_neg (by omega)]
      simp [hb, ht]
    · rw [if_pos (by omega)]
      simp [ht, hb]
  · rw [if_neg hb]
    simp [hb]

/-- Walkability of a cell of a generation dungeon, stated over `Nat`
coordinates. -/
def cellWalk (width height : Nat) (t : Grid) (p : Nat × Nat) : Prop :=
  p.1 < width ∧ p.2 < height ∧ (getTile t p.1 p.2 = 1 ∨ getTile t p.1 p.2 = 2)

theorem cellWalk_is_walkable {width height : Nat} {t : Grid} {p : Nat × Nat}
    (h : cellWalk width height t p) :
    (genDungeon width height t).is_walkable (p.1 : Int) (p.2 : Int) = true := by
  obtain ⟨h1, h2, h3⟩ := h
  rw [genDungeon_is_walkable]
  simp only [Int.toNat_natCast]
  refine decide_eq_true ?_
  exact ⟨⟨by positivity, by exact_mod_cast h1, by positivity, by exact_mod_cast h2⟩, h3⟩

/-- Nat-level reachability wrapper. -/
def ReachN (width height : Nat) (t : Grid) (p q : Nat × Nat) : Prop :=
  Reachable (genDungeon width height t) ((p.1 : Int), (p.2 : Int)) ((q.1 : Int), (q.2 : Int))

theorem ReachN.refl (width height : Nat) (t : Grid) (p : Nat × Nat) :
    ReachN width height t p p := Reachable.refl

theorem ReachN.chain {width height : Nat} {t : Grid} {a b c : Nat × Nat}
    (h1 : ReachN width height t a b) (h2 : ReachN width height t b c) :
    ReachN width height t a c := Reachable.trans h1 h2

theorem ReachN.stepRight {width height : Nat} {t : Grid} {a : Nat × Nat} {x y : Nat}
    (h : ReachN width height t a (x, y)) (hw : cellWalk width height t (x + 1, y)) :
    ReachN width height t a (x + 1, y) := by
  refine Reachable.step h ?_ (cellWalk_is_walkable hw)
  left
  constructor <;> push_cast <;> ring

theorem ReachN.stepLeft {width height : Nat} {t : Grid} {a : Nat × Nat} {x y : Nat}
    (h : ReachN width height t a (x + 1, y)) (hw : cellWalk width height t (x, y)) :
    ReachN width height t a (x, y) := by
  refine Reachable.step h ?_ (cellWalk_is_walkable hw)
  right; left
  constructor <;> push_cast <;> ring

theorem ReachN.stepUp {width height : Nat} {t : Grid} {a : Nat × Nat} {x y : Nat}
    (h : ReachN width height t a (x, y)) (hw : cellWalk width height t (x, y + 1)) :
    ReachN width height t a (x, y + 1) := by
  refine Reachable.step h ?_ (cellWalk_is_walkable hw)
  right; right; left
  constructor <;> push_cast <;> ring

theorem ReachN.stepDown {width height : Nat} {t : Grid} {a : Nat × Nat} {x y : Nat}
    (h : ReachN width height t a (x, y + 1)) (hw : cellWalk width height t (x, y)) :
    ReachN width height t a (x, y) := by
  refine Reachable.step h ?_ (cellWalk_is_walkable hw)
  right; right; right
  constructor <;> push_cast <;> ring

theorem genDungeon_walk_iff (width height : Nat) (t : Grid) (x y : Int) :
    (genDungeon width height t).is_walkable x y = true ↔
      ((0 ≤ x ∧ x < (width : Int) ∧ 0 ≤ y ∧ y < (height : Int)) ∧
        (getTile t x.toNat y.toNat = 1 ∨ getTile t x.toNat y.toNat = 2)) := by
  rw [genDungeon_is_walkable]
  simp

/-- One grid extends another when every Floor/Exit cell stays
Floor/Exit; all carve operations only extend. -/
def GridLE (t t' : Grid) : Prop :=
  ∀ x y : Nat, (getTile t x y = 1 ∨ getTile t x y = 2) →
    (getTile t' x y = 1 ∨ getTile t' x y = 2)

theorem GridLE.rfl (t : Grid) : GridLE t t := fun _ _ h => h

theorem GridLE.glue {a b c : Grid} (h1 : GridLE a b) (h2 : GridLE b c) : GridLE a c :=
  fun x y h => h2 x y (h1 x y h)

theorem gridLE_writeCells (t : Grid) (cs : List (Nat × Nat)) {v : Nat}
    (hv : v = 1 ∨ v = 2) : GridLE t (writeCells t cs v) := by
  intro x y hxy
  rcases getTile_writeCells_cases t cs v x y with hc | hc
  · rw [hc]
    exact hv
  · rw [hc]
    exact hxy

theorem cellWalk_mono {width height : Nat} {t t' : Grid} (hle : GridLE t t')
    {p : Nat × Nat} (h : cellWalk width height t p) : cellWalk width height t' p :=
  ⟨h.1, h.2.1, hle _ _ h.2.2⟩

theorem ReachN.monoGrid {width height : Nat} {t t' : Grid} (hle : GridLE t t')
    {p q : Nat × Nat} (h : ReachN width height t p q) : ReachN width height t' p q := by
  refine Reachable.mono (fun x y hw => ?_) h
  rw [genDungeon_walk_iff] at hw ⊢
  exact ⟨hw.1, hle _ _ hw.2⟩

theorem reachN_asc {width height : Nat} {t : Grid} {y : Nat} (a n : Nat)
    (hw : ∀ i, i ≤ n → cellWalk width height t (a + i, y)) :
    ReachN width height t (a, y) (a + n, y) := by
  induction n with
  | zero => exact ReachN.refl width height t (a, y)
  | succ n ih =>
    exact ReachN.stepRight (ih fun i hi => hw i (by omega)) (hw (n + 1) (by omega))

theorem reachN_desc {width height : Nat} {t : Grid} {y : Nat} (a n : Nat)
    (hw : ∀ i, i ≤ n → cellWalk width height t (a + i, y)) :
    ReachN width height t (a + n, y) (a, y) := by
  induction n with
  | zero => exact ReachN.refl width height t (a, y)
  | succ n ih =>
    refine ReachN.chain (b := (a + n, y)) ?_ (ih fun i hi => hw i (by omega))
    exact ReachN.stepLeft (ReachN.refl width height t (a + n + 1, y)) (hw n (by omega))

theorem reachN_ascV {width height : Nat} {t : Grid} {x : Nat} (a n : Nat)
    (hw : ∀ i, i ≤ n → cellWalk width height t (x, a + i)) :
    ReachN width height t (x, a) (x, a + n) := by
  induction n with
  | zero => exact ReachN.refl width height t (x, a)
  | succ n ih =>
    exact ReachN.stepUp (ih fun i hi => hw i (by omega)) (hw (n + 1) (by omega))

theorem reachN_descV {width height : Nat} {t : Grid} {x : Nat} (a n : Nat)
    (hw : ∀ i, i ≤ n → cellWalk width height t (x, a + i)) :
    ReachN width height t (x, a + n) (x, a) := by
  induction n with
  | zero => exact ReachN.refl width height t (x, a)
  | succ n ih =>
    refine ReachN.chain (b := (x, a + n)) ?_ (ih fun i hi => hw i (by omega))
    exact ReachN.stepDown (ReachN.refl width height t (x, a + n + 1)) (hw n (by omega))

theorem reachN_horiz {width height : Nat} {t : Grid} {y : Nat} (x1 x2 : Nat)
    (hw : ∀ x, min x1 x2 ≤ x → x ≤ max x1 x2 → cellWalk width height t (x, y)) :
    ReachN width height t (x1, y) (x2, y) ∧ ReachN width height t (x2, y) (x1, y) := by
  rcases Nat.le_total x1 x2 with hle | hle
  · obtain ⟨n, rfl⟩ : ∃ n, x2 = x1 + n := ⟨x2 - x1, by omega⟩
    have hw' : ∀ i, i ≤ n → cellWalk width height t (x1 + i, y) := by
      intro i hi
      exact hw (x1 + i) (by omega) (by omega)
    exact ⟨reachN_asc x1 n hw', reachN_desc x1 n hw'⟩
  · obtain ⟨n, rfl⟩ : ∃ n, x1 = x2 + n := ⟨x1 - x2, by omega⟩
    have hw' : ∀ i, i ≤ n → cellWalk width height t (x2 + i, y) := by
      intro i hi
      exact hw (x2 + i) (by omega) (by omega)
    exact ⟨reachN_desc x2 n hw', reachN_asc x2 n hw'⟩

theorem reachN_vert {width height : Nat} {t : Grid} {x : Nat} (y1 y2 : Nat)
    (hw : ∀ y, min y1 y2 ≤ y → y ≤ max y1 y2 → cellWalk width height t (x, y)) :
    ReachN width height t (x, y1) (x, y2) ∧ ReachN width height t (x, y2) (x, y1) := by
  rcases Nat.le_total y1 y2 with hle | hle
  · obtain ⟨n, rfl⟩ : ∃ n, y2 = y1 + n := ⟨y2 - y1, by omega⟩
    have hw' : ∀ i, i ≤ n → cellWalk width height t (x, y1 + i) := by
      intro i hi
      exact hw (y1 + i) (by omega) (by omega)
    exact ⟨reachN_ascV y1 n hw', reachN_descV y1 n hw'⟩
  · obtain ⟨n, rfl⟩ : ∃ n, y1 = y2 + n := ⟨y1 - y2, by omega⟩
    have hw' : ∀ i, i ≤ n → cellWalk width height t (x, y2 + i) := by
      intro i hi
      exact hw (y2 + i) (by omega) (by omega)
    exact ⟨reachN_descV y2 n hw', reachN_ascV y2 n hw'⟩

/-- Bounds of every room accepted by the generator when
`12 ≤ width` and `12 ≤ height`: position drawn in
`[1, width - w - 1]` with size `w ∈ [5, 10]`. -/
def RoomInB (width height : Nat) (rm : Room) : Prop :=
  1 ≤ rm.x1 ∧ rm.x1 + 5 ≤ rm.x2 ∧ rm.x2 ≤ width - 1 ∧
    1 ≤ rm.y1 ∧ rm.y1 + 5 ≤ rm.y2 ∧ rm.y2 ≤ height - 1 ∧ 12 ≤ width ∧ 12 ≤ height

theorem center_in_roomCells {width height : Nat} {rm : Room}
    (hinb : RoomInB width height rm) :
    rm.center ∈ roomCells rm ∧ rm.center.1 < width ∧ rm.center.2 < height := by
  obtain ⟨h1, h2, h3, h4, h5, h6, h7, h8⟩ := hinb
  unfold Room.center
  refine ⟨mem_roomCells.mpr ⟨by omega, by omega, by omega, by omega⟩, ?_, ?_⟩
  · show (rm.x1 + rm.x2) / 2 < width
    omega
  · show (rm.y1 + rm.y2) / 2 < height
    omega

theorem le_one_writeCells {t : Grid} (h1 : ∀ x y, getTile t x y ≤ 1)
    (cs : List (Nat × Nat)) : ∀ x y, getTile (writeCells t cs 1) x y ≤ 1 := by
  intro x y
  have hxy := h1 x y
  rcases getTile_writeCells_cases t cs 1 x y with hc | hc <;> omega

theorem carve_room_spec {width height : Nat} (t : Grid) (hwf : GridWF t width height)
    (rm : Room) (hinb : RoomInB width height rm) :
    GridWF (carve_room t rm) width height ∧ GridLE t (carve_room t rm) ∧
      cellWalk width height (carve_room t rm) rm.center := by
  obtain ⟨hmem, hcx, hcy⟩ := center_in_roomCells hinb
  rw [carve_room_eq_writeCells]
  refine ⟨gridWF_writeCells hwf _ _, gridLE_writeCells t _ (Or.inl rfl), hcx, hcy, ?_⟩
  exact Or.inl (getTile_writeCells_mem hwf hmem hcx hcy 1)

theorem carve_L1_spec {width height : Nat} (t : Grid) (hwf : GridWF t width height)
    {x1 y1 x2 y2 : Nat} (hx1 : x1 < width) (hy1 : y1 < height)
    (hx2 : x2 < width) (hy2 : y2 < height) :
    GridWF (carve_v_tunnel (carve_h_tunnel t x1 x2 y1) y1 y2 x2) width height ∧
      GridLE t (carve_v_tunnel (carve_h_tunnel t x1 x2 y1) y1 y2 x2) ∧
      ReachN width height (carve_v_tunnel (carve_h_tunnel t x1 x2 y1) y1 y2 x2)
        (x1, y1) (x2, y2) ∧
      ReachN width height (carve_v_tunnel (carve_h_tunnel t x1 x2 y1) y1 y2 x2)
        (x2, y2) (x1, y1) := by
  rw [carve_h_tunnel_eq_writeCells, carve_v_tunnel_eq_writeCells]
  have hwf1 : GridWF (writeCells t (hCells x1 x2 y1) 1) width height :=
    gridWF_writeCells hwf _ _
  have hwf2 : GridWF (writeCells (writeCells t (hCells x1 x2 y1) 1) (vCells y1 y2 x2) 1)
      width height := gridWF_writeCells hwf1 _ _
  have hle1 : GridLE t (writeCells t (hCells x1 x2 y1) 1) :=
    gridLE_writeCells t _ (Or.inl rfl)
  have hle2 : GridLE (writeCells t (hCells x1 x2 y1) 1)
      (writeCells (writeCells t (hCells x1 x2 y1) 1) (vCells y1 y2 x2) 1) :=
    gridLE_writeCells _ _ (Or.inl rfl)
  have hhcells : ∀ x, min x1 x2 ≤ x → x ≤ max x1 x2 →
      cellWalk width height
        (writeCells (writeCells t (hCells x1 x2 y1) 1) (vCells y1 y2 x2) 1) (x, y1) := by
    intro x hlo hhi
    have hxw : x < width := by omega
    refine cellWalk_mono hle2 ⟨hxw, hy1, Or.inl ?_⟩
    exact getTile_writeCells_mem hwf (mem_hCells.mpr ⟨rfl, hlo, hhi⟩) hxw hy1 1
  have hvcells : ∀ y, min y1 y2 ≤ y → y ≤ max y1 y2 →
      cellWalk width height
        (writeCells (writeCells t (hCells x1 x2 y1) 1) (vCells y1 y2 x2) 1) (x2, y) := by
    intro y hlo hhi
    have hyh : y < height := by omega
    refine ⟨hx2, hyh, Or.inl ?_⟩
    exact getTile_writeCells_mem hwf1 (mem_vCells.mpr ⟨rfl, hlo, hhi⟩) hx2 hyh 1
  obtain ⟨hh1, hh2⟩ := reachN_horiz x1 x2 hhcells
  obtain ⟨hv1, hv2⟩ := reachN_vert y1 y2 hvcells
  exact ⟨hwf2, hle1.glue hle2, hh1.chain hv1, hv2.chain hh2⟩

theorem carve_L2_spec {width height : Nat} (t : Grid) (hwf : GridWF t width height)
    {x1 y1 x2 y2 : Nat} (hx1 : x1 < width) (hy1 : y1 < height)
    (hx2 : x2 < width) (hy2 : y2 < height) :
    GridWF (carve_h_tunnel (carve_v_tunnel t y1 y2 x1) x1 x2 y2) width height ∧
      GridLE t (carve_h_tunnel (carve_v_tunnel t y1 y2 x1) x1 x2 y2) ∧
      ReachN width height (carve_h_tunnel (carve_v_tunnel t y1 y2 x1) x1 x2 y2)
        (x1, y1) (x2, y2) ∧
      ReachN width height (carve_h_tunnel (carve_v_tunnel t y1 y2 x1) x1 x2 y2)
        (x2, y2) (x1, y1) := by
  rw [carve_h_tunnel_eq_writeCells, carve_v_tunnel_eq_writeCells]
  have hwf1 : GridWF (writeCells t (vCells y1 y2 x1) 1) width height :=
    gridWF_writeCells hwf _ _
  have hwf2 : GridWF (writeCells (writeCells t (vCells y1 y2 x1) 1) (hCells x1 x2 y2) 1)
      width height := gridWF_writeCells hwf1 _ _
  have hle1 : GridLE t (writeCells t (vCells y1 y2 x1) 1) :=
    gridLE_writeCells t _ (Or.inl rfl)
  have hle2 : GridLE (writeCells t (vCells y1 y2 x1) 1)
      (writeCells (writeCells t (vCells y1 y2 x1) 1) (hCells x1 x2 y2) 1) :=
    gridLE_writeCells _ _ (Or.inl rfl)
  have hvcells : ∀ y, min y1 y2 ≤ y → y ≤ max y1 y2 →
      cellWalk width height
        (writeCells (writeCells t (vCells y1 y2 x1) 1) (hCells x1 x2 y2) 1) (x1, y) := by
    intro y hlo hhi
    have hyh : y < height := by omega
    refine cellWalk_mono hle2 ⟨hx1, hyh, Or.inl ?_⟩
    exact getTile_writeCells_mem hwf (mem_vCells.mpr ⟨rfl, hlo, hhi⟩) hx1 hyh 1
  have hhcells : ∀ x, min x1 x2 ≤ x → x ≤ max x1 x2 →
      cellWalk width height
        (writeCells (writeCells t (vCells y1 y2 x1) 1) (hCells x1 x2 y2) 1) (x, y2) := by
    intro x hlo hhi
    have hxw : x < width := by omega
    refine ⟨hxw, hy2, Or.inl ?_⟩
    exact getTile_writeCells_mem hwf1 (mem_hCells.mpr ⟨rfl, hlo, hhi⟩) hxw hy2 1
  obtain ⟨hv1, hv2⟩ := reachN_vert y1 y2 hvcells
  obtain ⟨hh1, hh2⟩ := reachN_horiz x1 x2 hhcells
  exact ⟨hwf2, hle1.glue hle2, hv1.chain hh1, hh2.chain hv2⟩

/-- Number of Exit (stairs) tiles in the grid. -/
def countExits (width height : Nat) (t : Grid) : Nat :=
  ((List.range width).map fun x =>
    ((List.range height).filter fun y => getTile t x y == 2).length).sum

theorem filter_range_eq_nil {n : Nat} {p : Nat → Bool}
    (hp : ∀ y, y < n → p y = false) : (List.range n).filter p = [] := by
  rw [List.filter_eq_nil_iff]
  intro a ha
  rw [hp a (List.mem_range.mp ha)]
  exact Bool.false_ne_true

theorem filter_range_length_one {n k : Nat} (hk : k < n) {p : Nat → Bool}
    (hp : ∀ y, p y = true ↔ y = k) : ((List.range n).filter p).length = 1 := by
  induction n with
  | zero => omega
  | succ m ih =>
    rw [List.range_succ, List.filter_append, List.length_append]
    by_cases hkm : k = m
    · subst hkm
      rw [filter_range_eq_nil (fun y hy => by
        rcases Bool.eq_false_or_eq_true (p y) with ht | hf
        · exact absurd ((hp y).mp ht) (by omega)
        · exact hf)]
      simp [List.filter, (hp k).mpr rfl]
    · rw [ih (by omega)]
      have hpm : p m = false := by
        rcases Bool.eq_false_or_eq_true (p m) with ht | hf
        · exact absurd ((hp m).mp ht) (fun he => hkm he.symm)
        · exact hf
      simp [List.filter, hpm]

theorem countExits_of_le_one {width height : Nat} {t : Grid}
    (hle1 : ∀ x y, getTile t x y ≤ 1) : countExits width height t = 0 := by
  unfold countExits
  refine List.sum_eq_zero fun n hn => ?_
  obtain ⟨x, hx, rfl⟩ := List.mem_map.mp hn
  rw [filter_range_eq_nil fun y hy => ?_]
  · rfl
  · have := hle1 x y
    simp only [beq_eq_false_iff_ne, ne_eq]
    omega

theorem sum_map_ite_range {w sx : Nat} (hsx : sx < w) :
    ((List.range w).map fun x => if x = sx then 1 else 0).sum = 1 := by
  induction w with
  | zero => omega
  | succ n ih =>
    rw [List.range_succ, List.map_append, List.sum_append]
    by_cases h : sx = n
    · subst h
      have hzero : ((List.range sx).map fun x => if x = sx then 1 else 0).sum = 0 := by
        refine List.sum_eq_zero fun m hm => ?_
        obtain ⟨x, hx, rfl⟩ := List.mem_map.mp hm
        have := List.mem_range.mp hx
        simp [show x ≠ sx by omega]
      simp [hzero]
    · rw [ih (by omega)]
      simp [show ¬(n = sx) by omega]

/-- Setting one stairs tile on an all-Wall/Floor grid produces exactly
one Exit. -/
theorem countExits_setTile {width height : Nat} {t : Grid}
    (hwf : GridWF t width height) (hle1 : ∀ x y, getTile t x y ≤ 1)
    {sx sy : Nat} (hsx : sx < width) (hsy : sy < height) :
    countExits width height (setTile t sx sy 2) = 1 := by
  unfold countExits
  have hcol : ∀ x ∈ List.range width,
      ((List.range height).filter fun y => getTile (setTile t sx sy 2) x y == 2).length =
        if x = sx then 1 else 0 := by
    intro x hx
    by_cases hxs : x = sx
    · subst hxs
      rw [if_pos rfl]
      refine filter_range_length_one hsy fun y => ?_
      constructor
      · intro hy
        by_contra hne
        rw [getTile_setTile_ne (by simp [hne]) 2] at hy
        have := hle1 x y
        simp only [beq_iff_eq] at hy
        omega
      · intro hy
        subst hy
        rw [getTile_setTile_same hwf hsx hsy 2]
        exact beq_self_eq_true 2
    · rw [if_neg hxs]
      rw [filter_range_eq_nil fun y hy => ?_]
      · rfl
      · rw [getTile_setTile_ne (by simp [hxs]) 2]
        have := hle1 x y
        simp only [beq_eq_false_iff_ne, ne_eq]
        omega
  rw [List.map_congr_left hcol]
  exact sum_map_ite_range hsx

theorem randint_bounds {lo hi : Nat} (hle : lo ≤ hi) (r : Rng) :
    lo ≤ (randint lo hi r).1 ∧ (randint lo hi r).1 ≤ hi := by
  unfold randint Rng.next
  dsimp only
  have := Nat.mod_lt (r.seq r.idx) (show 0 < hi + 1 - lo by omega)
  omega

theorem getLastD_mem {l : List Room} (h : l ≠ []) (d : Room) : l.getLastD d ∈ l := by
  induction l generalizing d with
  | nil => exact absurd rfl h
  | cons a l ih =>
    rw [List.getLastD_cons]
    by_cases hl : l = []
    · subst hl
      exact List.mem_singleton.mpr rfl
    · exact List.mem_cons_of_mem a (ih hl a)

theorem le_one_carve_room {t : Grid} (h1 : ∀ x y, getTile t x y ≤ 1) (rm : Room) :
    ∀ x y, getTile (carve_room t rm) x y ≤ 1 := by
  rw [carve_room_eq_writeCells]
  exact le_one_writeCells h1 _

theorem le_one_carve_h {t : Grid} (h1 : ∀ x y, getTile t x y ≤ 1) (a b c : Nat) :
    ∀ x y, getTile (carve_h_tunnel t a b c) x y ≤ 1 := by
  rw [carve_h_tunnel_eq_writeCells]
  exact le_one_writeCells h1 _

theorem le_one_carve_v {t : Grid} (h1 : ∀ x y, getTile t x y ≤ 1) (a b c : Nat) :
    ∀ x y, getTile (carve_v_tunnel t a b c) x y ≤ 1 := by
  rw [carve_v_tunnel_eq_writeCells]
  exact le_one_writeCells h1 _

/-- Invariant carried through the room loop of `generate_dungeon`: the
grid is well-formed and all-Wall/Floor, every accepted room is in
bounds, every accepted room's center is carved, and every center is
connected (both ways) to the first room's center. -/
structure GenInv (width height : Nat) (t : Grid) (rooms : List Room) : Prop where
  wf : GridWF t width height
  le1 : ∀ x y, getTile t x y ≤ 1
  inb : ∀ rm ∈ rooms, RoomInB width height rm
  walk : ∀ rm ∈ rooms, cellWalk width height t rm.center
  conn : ∀ rm ∈ rooms, ∀ fr, rooms.head? = some fr →
    ReachN width height t rm.center fr.center ∧
      ReachN width height t fr.center rm.center

/-- Extending the invariant with one freshly carved room whose center
is connected to the previous room's center. -/
theorem geninv_extend {width height : Nat} {t : Grid} {rooms : List Room}
    (inv : GenInv width height t rooms)
    {new_room : Room} (hinb : RoomInB width height new_room)
    {t2 : Grid} (hwf2 : GridWF t2 width height)
    (hle2 : GridLE (carve_room t new_room) t2)
    (hle1_2 : ∀ x y, getTile t2 x y ≤ 1)
    (hconn_new : rooms ≠ [] →
      ReachN width height t2 new_room.center (rooms.getLastD new_room).center ∧
        ReachN width height t2 (rooms.getLastD new_room).center new_room.center) :
    GenInv width height t2 (rooms ++ [new_room]) := by
  obtain ⟨hwfc, hlec, hwalkc⟩ := carve_room_spec t inv.wf new_room hinb
  have hle_t_t2 : GridLE t t2 := hlec.glue hle2
  refine ⟨hwf2, hle1_2, ?_, ?_, ?_⟩
  · intro rm hrm
    rcases List.mem_append.mp hrm with hold | hnew
    · exact inv.inb rm hold
    · rw [List.mem_singleton.mp hnew]
      exact hinb
  · intro rm hrm
    rcases List.mem_append.mp hrm with hold | hnew
    · exact cellWalk_mono hle_t_t2 (inv.walk rm hold)
    · rw [List.mem_singleton.mp hnew]
      exact cellWalk_mono hle2 hwalkc
  · intro rm hrm fr hfr
    by_cases hrooms : rooms = []
    · subst hrooms
      simp only [List.nil_append, List.head?_cons, Option.some.injEq] at hfr
      have hrmn : rm = new_room := by simpa using hrm
      subst hrmn
      rw [← hfr]
      exact ⟨ReachN.refl _ _ _ _, ReachN.refl _ _ _ _⟩
    · have hfr' : rooms.head? = some fr := by
        obtain ⟨a, l, rfl⟩ := List.exists_cons_of_ne_nil hrooms
        simpa using hfr
      have hprev_mem : rooms.getLastD new_room ∈ rooms := getLastD_mem hrooms _
      obtain ⟨hc1, hc2⟩ := hconn_new hrooms
      obtain ⟨hp1, hp2⟩ := inv.conn _ hprev_mem fr hfr'
      rcases List.mem_append.mp hrm with hold | hnew
      · obtain ⟨ho1, ho2⟩ := inv.conn rm hold fr hfr'
        exact ⟨ho1.monoGrid hle_t_t2, ho2.monoGrid hle_t_t2⟩
      · rw [List.mem_singleton.mp hnew]
        exact ⟨hc1.chain (hp1.monoGrid hle_t_t2),
          (hp2.monoGrid hle_t_t2).chain hc2⟩

/-- One placement attempt preserves the generation invariant. -/
theorem genStep_preserves {width height : Nat} (hw : 12 ≤ width) (hh : 12 ≤ height)
    {t : Grid} {rooms : List Room} (inv : GenInv width height t rooms) (r : Rng) :
    GenInv width height (genStep width height t rooms r).1
      (genStep width height t rooms r).2.1 := by
  unfold genStep
  obtain ⟨w5, r1, he1⟩ : ∃ a b, randint min_room_size max_room_size r = (a, b) :=
    ⟨_, _, rfl⟩
  have hb1 := randint_bounds (show min_room_size ≤ max_room_size by decide) r
  rw [he1] at hb1 ⊢
  dsimp only at hb1 ⊢
  obtain ⟨h5, r2, he2⟩ : ∃ a b, randint min_room_size max_room_size r1 = (a, b) :=
    ⟨_, _, rfl⟩
  have hb2 := randint_bounds (show min_room_size ≤ max_room_size by decide) r1
  rw [he2] at hb2 ⊢
  dsimp only at hb2 ⊢
  unfold min_room_size max_room_size at hb1 hb2
  obtain ⟨px, r3, he3⟩ : ∃ a b, randint 1 (width - w5 - 1) r2 = (a, b) := ⟨_, _, rfl⟩
  have hb3 := randint_bounds (show 1 ≤ width - w5 - 1 by omega) r2
  rw [he3] at hb3 ⊢
  dsimp only at hb3 ⊢
  obtain ⟨py, r4, he4⟩ : ∃ a b, randint 1 (height - h5 - 1) r3 = (a, b) := ⟨_, _, rfl⟩
  have hb4 := randint_bounds (show 1 ≤ height - h5 - 1 by omega) r3
  rw [he4] at hb4 ⊢
  dsimp only at hb4 ⊢
  have hinb_new : RoomInB width height { x1 := px, y1 := py, x2 := px + w5, y2 := py + h5 } := by
    unfold RoomInB
    dsimp only
    omega
  set NR : Room := { x1 := px, y1 := py, x2 := px + w5, y2 := py + h5 } with hNR
  obtain ⟨hwfc, hlec, hwalkc⟩ := carve_room_spec t inv.wf NR hinb_new
  have hle1c := le_one_carve_room inv.le1 NR
  obtain ⟨hccx, hccy⟩ := (center_in_roomCells hinb_new).2
  have hmain : rooms ≠ [] →
      ∀ tm : Grid, GridWF tm width height →
      (∀ x y, getTile tm x y ≤ 1) →
      GridLE (carve_room t NR) tm →
      ReachN width height tm NR.center (rooms.getLastD NR).center →
      ReachN width height tm (rooms.getLastD NR).center NR.center →
      ∀ tf : Grid, GridWF tf width height →
      (∀ x y, getTile tf x y ≤ 1) →
      GridLE tm tf →
      GenInv width height tf (rooms ++ [NR]) := by
    intro hne tm hwfm hle1m hlem hr1 hr2 tf hwff hle1f hlef
    exact geninv_extend inv hinb_new hwff (hlem.glue hlef) hle1f
      (fun _ => ⟨hr1.monoGrid hlef, hr2.monoGrid hlef⟩)
  split_ifs with hint h1 h2 h3 h4 h5
  · -- intersecting candidate: nothing changes
    exact inv
  all_goals (
    first
    | ( -- no accepted-room case (rooms empty)
       refine geninv_extend inv hinb_new hwfc (GridLE.rfl _) hle1c (fun hne => ?_)
       exact absurd (List.length_pos_of_ne_nil hne) h1)
    | (have hne : rooms ≠ [] := by
        intro h
        rw [h] at h1
        exact absurd h1 (by simp)
       have hpm := getLastD_mem hne NR
       obtain ⟨hpcx, hpcy⟩ := (center_in_roomCells (inv.inb _ hpm)).2
       first
       | ( -- main tunnel carved horizontally first
          obtain ⟨hwfm, hlem, hrm1, hrm2⟩ :=
            carve_L1_spec (carve_room t NR) hwfc hpcx hpcy hccx hccy
          have hle1m := le_one_carve_v
            (le_one_carve_h hle1c (rooms.getLastD NR).center.1 NR.center.1
              (rooms.getLastD NR).center.2)
            (rooms.getLastD NR).center.2 NR.center.2 NR.center.1
          first
          | exact hmain hne _ hwfm hle1m hlem hrm2 hrm1 _ hwfm hle1m (GridLE.rfl _)
          | (have hbi := (randint_bounds (Nat.zero_le (rooms.length - 1))
               (randomUnit (randomUnit r4).2).2).2
             have hrm := getD_mem
               (show (randint 0 (rooms.length - 1) (randomUnit (randomUnit r4).2).2).1 <
                 rooms.length by omega) NR
             obtain ⟨hrcx, hrcy⟩ := (center_in_roomCells (inv.inb _ hrm)).2
             first
             | (obtain ⟨hwf3, hle3, -, -⟩ := carve_L1_spec _ hwfm hccx hccy hrcx hrcy
                exact hmain hne _ hwfm hle1m hlem hrm2 hrm1 _ hwf3
                  (le_one_carve_v (le_one_carve_h hle1m _ _ _) _ _ _) hle3)
             | (obtain ⟨hwf3, hle3, -, -⟩ := carve_L2_spec _ hwfm hccx hccy hrcx hrcy
                exact hmain hne _ hwfm hle1m hlem hrm2 hrm1 _ hwf3
                  (le_one_carve_h (le_one_carve_v hle1m _ _ _) _ _ _) hle3)))
       | ( -- main tunnel carved vertically first
          obtain ⟨hwfm, hlem, hrm1, hrm2⟩ :=
            carve_L2_spec (carve_room t NR) hwfc hpcx hpcy hccx hccy
          have hle1m := le_one_carve_h
            (le_one_carve_v hle1c (rooms.getLastD NR).center.2 NR.center.2
              (rooms.getLastD NR).center.1)
            (rooms.getLastD NR).center.1 NR.center.1 NR.center.2
          first
          | exact hmain hne _ hwfm hle1m hlem hrm2 hrm1 _ hwfm hle1m (GridLE.rfl _)
          | (have hbi := (randint_bounds (Nat.zero_le (rooms.length - 1))
               (randomUnit (randomUnit r4).2).2).2
             have hrm := getD_mem
               (show (randint 0 (rooms.length - 1) (randomUnit (randomUnit r4).2).2).1 <
                 rooms.length by omega) NR
             obtain ⟨hrcx, hrcy⟩ := (center_in_roomCells (inv.inb _ hrm)).2
             first
             | (obtain ⟨hwf3, hle3, -, -⟩ := carve_L1_spec _ hwfm hccx hccy hrcx hrcy
                exact hmain hne _ hwfm hle1m hlem hrm2 hrm1 _ hwf3
                  (le_one_carve_v (le_one_carve_h hle1m _ _ _) _ _ _) hle3)
             | (obtain ⟨hwf3, hle3, -, -⟩ := carve_L2_spec _ hwfm hccx hccy hrcx hrcy
                exact hmain hne _ hwfm hle1m hlem hrm2 hrm1 _ hwf3
                  (le_one_carve_h (le_one_carve_v hle1m _ _ _) _ _ _) hle3)))))

/-- All cells of the grid, for the wall-fill bridge. -/
def allCells (width height : Nat) : List (Nat × Nat) :=
  (List.range width).flatMap fun x => (List.range height).map fun y => (x, y)

theorem fillWalls_eq_writeCells (t : Grid) (width height : Nat) :
    fillWalls t width height = writeCells t (allCells width height) 0 := by
  simp [fillWalls, allCells, writeCells, foldl_flatMap, List.foldl_map]

theorem getTile_init (width height x y : Nat) :
    getTile (List.replicate width (List.replicate height 0)) x y = 0 := by
  simp only [getTile, List.getD_eq_getElem?_getD, List.getElem?_replicate]
  split_ifs <;> simp

/-- The invariant holds after the wall fill, before any room. -/
theorem genInv_initial (width height : Nat) :
    GenInv width height
      (fillWalls (Dungeon.init width height).tiles width height) [] := by
  have htiles : (Dungeon.init width height).tiles =
      List.replicate width (List.replicate height 0) := rfl
  rw [htiles, fillWalls_eq_writeCells]
  refine ⟨gridWF_writeCells (gridWF_replicate width height) _ _, ?_, ?_, ?_, ?_⟩
  · intro x y
    have h0 := getTile_init width height x y
    rcases getTile_writeCells_cases (List.replicate width (List.replicate height 0))
      (allCells width height) 0 x y with hc | hc <;> omega
  · intro rm hrm
    cases hrm
  · intro rm hrm
    cases hrm
  · intro rm hrm
    cases hrm

/-- The whole room loop preserves the invariant. -/
theorem genLoop_inv {width height : Nat} (hw : 12 ≤ width) (hh : 12 ≤ height) :
    ∀ (n : Nat) (t : Grid) (rooms : List Room) (r : Rng),
      GenInv width height t rooms →
      GenInv width height (genLoop width height n t rooms r).1
        (genLoop width height n t rooms r).2.1 := by
  intro n
  induction n with
  | zero => exact fun t rooms r inv => inv
  | succ n ih =>
    intro t rooms r inv
    unfold genLoop
    obtain ⟨t', rooms', r'', hstep⟩ :
        ∃ a b c, genStep width height t rooms r = (a, b, c) := ⟨_, _, _, rfl⟩
    have hpres := genStep_preserves hw hh inv r
    rw [hstep] at hpres ⊢
    dsimp only at hpres ⊢
    exact ih t' rooms' r'' hpres

theorem getLast?_mem_ne {l : List Room} {a : Room} (h : l.getLast? = some a) :
    a ∈ l ∧ l ≠ [] := by
  have hne : l ≠ [] := by
    intro hnil
    rw [hnil] at h
    cases h
  have hld : l.getLastD a = a := by
    rw [List.getLastD_eq_getLast?, h, Option.getD_some]
  exact ⟨hld ▸ getLastD_mem hne a, hne⟩

theorem head?_mem {l : List Room} {a : Room} (h : l.head? = some a) : a ∈ l := by
  cases l with
  | nil => cases h
  | cons b l =>
    rw [List.head?_cons, Option.some.injEq] at h
    rw [← h]
    exact List.mem_cons_self _ _

/-- Claim C1: for every generation on a grid of workable size (at least
12×12, so that every `randint` range in the source is nonempty; the
defaults are 80×20) that accepts at least one room, the returned
dungeon admits a walkable path — 4-directional steps over Floor/Exit
tiles, the relation explored by `_verify_path`'s BFS — from the first
accepted room's center to the exit tile placed at the last accepted
room's center, after the post-generation check and repair. -/
theorem claim_C1 (width height : Nat) (r : Rng) (hw : 12 ≤ width) (hh : 12 ≤ height)
    (d : Dungeon) (rooms : List Room) (r' : Rng)
    (hgen : generate_dungeon width height r = (d, rooms, r'))
    (fr lr : Room) (hfr : rooms.head? = some fr) (hlr : rooms.getLast? = some lr) :
    Reachable d ((fr.center.1 : Int), (fr.center.2 : Int))
      ((lr.center.1 : Int), (lr.center.2 : Int)) := by
  unfold generate_dungeon at hgen
  have hinv := genLoop_inv hw hh max_rooms
    (fillWalls (Dungeon.init width height).tiles width height) [] r
    (genInv_initial width height)
  set t := (genLoop width height max_rooms
    (fillWalls (Dungeon.init width height).tiles width height) [] r).1 with ht
  set rooms0 := (genLoop width height max_rooms
    (fillWalls (Dungeon.init width height).tiles width height) [] r).2.1 with hrooms0
  set r0 := (genLoop width height max_rooms
    (fillWalls (Dungeon.init width height).tiles width height) [] r).2.2 with hr0
  have hG : genLoop width height max_rooms
      (fillWalls (Dungeon.init width height).tiles width height) [] r =
      (t, rooms0, r0) := by
    rw [ht, hrooms0, hr0, Prod.mk.eta]
  clear_value t rooms0 r0
  clear ht hrooms0 hr0
  rw [hG] at hgen
  dsimp only at hgen
  cases hcase : rooms0.getLast? with
  | none =>
    rw [hcase] at hgen
    dsimp only at hgen
    cases hgen
    rw [hcase] at hlr
    cases hlr
  | some last_room =>
    rw [hcase] at hgen
    dsimp only at hgen
    obtain ⟨hlast_mem, hne0⟩ := getLast?_mem_ne hcase
    have hsb := (center_in_roomCells (hinv.inb _ hlast_mem)).2
    -- the exit write preserves walkability
    have hle_exit : GridLE t (setTile t last_room.center.1 last_room.center.2 2) := by
      rw [show setTile t last_room.center.1 last_room.center.2 2 =
        writeCells t [(last_room.center.1, last_room.center.2)] 2 from rfl]
      exact gridLE_writeCells t _ (Or.inr rfl)
    split_ifs at hgen
    · cases hgen
      rw [hcase] at hlr
      rw [Option.some.injEq] at hlr
      subst hlr
      obtain ⟨-, hconn⟩ := hinv.conn _ hlast_mem fr hfr
      exact (hconn.monoGrid hle_exit :)
    · cases hgen
      rw [hcase] at hlr
      rw [Option.some.injEq] at hlr
      subst hlr
      obtain ⟨-, hconn⟩ := hinv.conn _ hlast_mem fr hfr
      have hle_cdp : ∀ (st en : Nat × Nat) (g : Grid),
          GridLE g (create_direct_path g st en) := by
        intro st en g
        rw [create_direct_path_eq_writeCells]
        exact gridLE_writeCells _ _ (Or.inl rfl)
      exact ((hconn.monoGrid hle_exit).monoGrid (hle_cdp _ _ _) :)

theorem claim_C1_witness :
    Reachable (generate_dungeon 12 12 ⟨fun _ => 0, 0⟩).1
      ((3 : Int), (3 : Int)) ((3 : Int), (3 : Int)) :=
  claim_C1 12 12 ⟨fun _ => 0, 0⟩ (by decide) (by decide)
    (generate_dungeon 12 12 ⟨fun _ => 0, 0⟩).1
    (generate_dungeon 12 12 ⟨fun _ => 0, 0⟩).2.1
    (generate_dungeon 12 12 ⟨fun _ => 0, 0⟩).2.2
    (by rw [Prod.mk.eta])
    ⟨1, 1, 6, 6⟩ ⟨1, 1, 6, 6⟩ (by decide) (by decide)

/-- A 3-by-3 all-Wall grid whose bottom-right tile is the Exit. -/
def c2Grid : Grid := setTile (List.replicate 3 (List.replicate 3 0)) 2 2 2

/-- Claim C2 counterexample: the repair corridor DOES remove an Exit
tile.  `_create_direct_path`'s vertical run is carved inclusive of the
end cell, so a corridor ending at the exit overwrites the Exit (2) with
Floor (1). -/
theorem claim_C2_counterexample :
    getTile c2Grid 2 2 = 2 ∧
      getTile (create_direct_path c2Grid (0, 0) (2, 2)) 2 2 = 1 := by decide

/-- Claim C2 (amended): the repair corridor only writes Floor tiles, so
a Floor tile is never removed and every tile it touches becomes Floor —
but an Exit tile on the corridor is downgraded to Floor (see the
counterexample).  `Game._create_direct_path` carves exactly the same
corridor as `MapGenerator._create_direct_path`.  Consequently, after a
generation (grid at least 12×12) accepting at least one room, the grid
has exactly one Exit tile — at the last room's center — when the BFS
verification succeeded, and zero Exit tiles when the repair corridor
was carved (the corridor ends on, and erases, the just-placed exit). -/
theorem claim_C2 :
    (∀ (t : Grid) (s e : Nat × Nat) (x y : Nat), getTile t x y = 1 →
        getTile (create_direct_path t s e) x y = 1) ∧
    (∀ (t : Grid) (s e : Nat × Nat) (x y : Nat),
        getTile (create_direct_path t s e) x y = 1 ∨
        getTile (create_direct_path t s e) x y = getTile t x y) ∧
    (∀ (g : Game) (s e : Nat × Nat),
        (Game.create_direct_path g s e).dungeon.tiles =
          create_direct_path g.dungeon.tiles s e) ∧
    (∀ (width height : Nat) (r : Rng), 12 ≤ width → 12 ≤ height →
      ∀ (d : Dungeon) (rooms : List Room) (r' : Rng),
        generate_dungeon width height r = (d, rooms, r') →
        ∀ lr, rooms.getLast? = some lr →
          (getTile d.tiles lr.center.1 lr.center.2 = 2 ∧
            countExits width height d.tiles = 1) ∨
          (getTile d.tiles lr.center.1 lr.center.2 = 1 ∧
            countExits width height d.tiles = 0)) := by
  refine ⟨?_, ?_, ?_, ?_⟩
  · intro t s e x y h
    rw [create_direct_path_eq_writeCells]
    rcases getTile_writeCells_cases t _ 1 x y with hc | hc
    · exact hc
    · rw [hc]
      exact h
  · intro t s e x y
    rw [create_direct_path_eq_writeCells]
    exact getTile_writeCells_cases t _ 1 x y
  · intro g s e
    rfl
  · intro width height r hw hh d rooms r' hgen lr hlr
    unfold generate_dungeon at hgen
    have hinv := genLoop_inv hw hh max_rooms
      (fillWalls (Dungeon.init width height).tiles width height) [] r
      (genInv_initial width height)
    set t := (genLoop width height max_rooms
      (fillWalls (Dungeon.init width height).tiles width height) [] r).1 with ht
    set rooms0 := (genLoop width height max_rooms
      (fillWalls (Dungeon.init width height).tiles width height) [] r).2.1 with hrooms0
    set r0 := (genLoop width height max_rooms
      (fillWalls (Dungeon.init width height).tiles width height) [] r).2.2 with hr0
    have hG : genLoop width height max_rooms
        (fillWalls (Dungeon.init width height).tiles width height) [] r =
        (t, rooms0, r0) := by
      rw [ht, hrooms0, hr0, Prod.mk.eta]
    clear_value t rooms0 r0
    clear ht hrooms0 hr0
    rw [hG] at hgen
    dsimp only at hgen
    cases hcase : rooms0.getLast? with
    | none =>
      rw [hcase] at hgen
      dsimp only at hgen
      cases hgen
      rw [hcase] at hlr
      cases hlr
    | some last_room =>
      rw [hcase] at hgen
      dsimp only at hgen
      obtain ⟨hlast_mem, hne0⟩ := getLast?_mem_ne hcase
      have hinb := hinv.inb _ hlast_mem
      obtain ⟨hmemc, hcx, hcy⟩ := center_in_roomCells hinb
      split_ifs at hgen
      · rw [Prod.mk.injEq, Prod.mk.injEq] at hgen
        obtain ⟨hd, hrooms, hr'⟩ := hgen
        subst hd
        subst hrooms
        rw [hcase, Option.some.injEq] at hlr
        subst hlr
        exact Or.inl ⟨getTile_setTile_same hinv.wf hcx hcy 2,
          countExits_setTile hinv.wf hinv.le1 hcx hcy⟩
      · rw [Prod.mk.injEq, Prod.mk.injEq] at hgen
        obtain ⟨hd, hrooms, hr'⟩ := hgen
        subst hd
        subst hrooms
        rw [hcase, Option.some.injEq] at hlr
        subst hlr
        have hwf2 := gridWF_setTile hinv.wf last_room.center.1 last_room.center.2 2
        have hmemv : (last_room.center.1, last_room.center.2) ∈
            hCells (rooms0.headD last_room).center.1 last_room.center.1
              (rooms0.headD last_room).center.2 ++
            vCells (rooms0.headD last_room).center.2 last_room.center.2
              last_room.center.1 :=
          List.mem_append_right _
            (mem_vCells.mpr ⟨rfl, by omega, by omega⟩)
        have hle_all : ∀ x y,
            getTile (create_direct_path
              (setTile t last_room.center.1 last_room.center.2 2)
              (rooms0.headD last_room).center last_room.center) x y ≤ 1 := by
          intro x y
          rw [create_direct_path_eq_writeCells]
          by_cases hxy : x = last_room.center.1 ∧ y = last_room.center.2
          · obtain ⟨h1, h2⟩ := hxy
            subst h1
            subst h2
            rw [getTile_writeCells_mem hwf2 hmemv hcx hcy 1]
          · rcases getTile_writeCells_cases
              (setTile t last_room.center.1 last_room.center.2 2)
              (hCells (rooms0.headD last_room).center.1 last_room.center.1
                (rooms0.headD last_room).center.2 ++
               vCells (rooms0.headD last_room).center.2 last_room.center.2
                last_room.center.1) 1 x y with hc | hc
            · omega
            · have hne : (x, y) ≠ (last_room.center.1, last_room.center.2) :=
                fun he => hxy ⟨congrArg Prod.fst he, congrArg Prod.snd he⟩
              rw [hc, getTile_setTile_ne hne 2]
              exact hinv.le1 x y
        refine Or.inr ⟨?_, countExits_of_le_one hle_all⟩
        show getTile (create_direct_path
          (setTile t last_room.center.1 last_room.center.2 2)
          (rooms0.headD last_room).center last_room.center)
          last_room.center.1 last_room.center.2 = 1
        rw [create_direct_path_eq_writeCells]
        exact getTile_writeCells_mem hwf2 hmemv hcx hcy 1

/-- A successful random floor draw is walkable. -/
theorem get_random_floor_tile_walkable {d : Dungeon} :
    ∀ {fuel : Nat} {r : Rng} {x y : Nat} {r' : Rng},
      get_random_floor_tile d fuel r = some ((x, y), r') →
      d.is_walkable (x : Int) (y : Int) = true := by
  intro fuel
  induction fuel with
  | zero => intro r x y r' h; cases h
  | succ n ih =>
    intro r x y r' h
    unfold get_random_floor_tile at h
    obtain ⟨a, r1, hxeq⟩ : ∃ a b, randint 1 (d.width - 2) r = (a, b) := ⟨_, _, rfl⟩
    rw [hxeq] at h
    dsimp only at h
    obtain ⟨b, r2, hyeq⟩ : ∃ a c, randint 1 (d.height - 2) r1 = (a, c) := ⟨_, _, rfl⟩
    rw [hyeq] at h
    dsimp only at h
    split_ifs at h with hw
    · rw [Option.some.injEq, Prod.mk.injEq, Prod.mk.injEq] at h
      obtain ⟨⟨hx1, hy1⟩, -⟩ := h
      subst hx1
      subst hy1
      exact hw
    · exact ih h

/-- A successful placement search lands on a walkable cell that passes
the clear/stairs-distance filter. -/
theorem findPlacement_spec {d : Dungeon} {sp : Option (Nat × Nat)} :
    ∀ {fuel : Nat} {r : Rng} {x y : Nat} {r' : Rng},
      findPlacement d sp fuel r = some ((x, y), r') →
      d.is_walkable (x : Int) (y : Int) = true ∧ placementOk d sp x y = true := by
  intro fuel
  induction fuel with
  | zero => intro r x y r' h; cases h
  | succ n ih =>
    intro r x y r' h
    unfold findPlacement at h
    cases hg : get_random_floor_tile d (n + 1) r with
    | none => rw [hg] at h; cases h
    | some res =>
      obtain ⟨⟨a, b⟩, r2⟩ := res
      rw [hg] at h
      dsimp only at h
      split_ifs at h with hok
      · rw [Option.some.injEq, Prod.mk.injEq, Prod.mk.injEq] at h
        obtain ⟨⟨hx1, hy1⟩, -⟩ := h
        subst hx1
        subst hy1
        exact ⟨get_random_floor_tile_walkable hg, hok⟩
      · exact ih h

/-- Decomposition of a true `is_walkable` answer. -/
theorem is_walkable_parts {d : Dungeon} {x y : Int} (h : d.is_walkable x y = true) :
    0 ≤ x ∧ x < (d.width : Int) ∧ 0 ≤ y ∧ y < (d.height : Int) ∧
      (getTile d.tiles x.toNat y.toNat = 1 ∨ getTile d.tiles x.toNat y.toNat = 2) := by
  unfold Dungeon.is_walkable at h
  by_cases hb : 0 ≤ x ∧ x < (d.width : Int) ∧ 0 ≤ y ∧ y < (d.height : Int)
  · rw [if_pos hb] at h
    by_cases ht : getTile d.tiles x.toNat y.toNat ≠ 1 ∧
        getTile d.tiles x.toNat y.toNat ≠ 2
    · rw [if_pos ht] at h
      exact Bool.noConfusion h
    · refine ⟨hb.1, hb.2.1, hb.2.2.1, hb.2.2.2, ?_⟩
      by_contra hc
      push_neg at hc
      exact ht ⟨hc.1, hc.2⟩
  · rw [if_neg hb] at h
    exact Bool.noConfusion h

/-- Decomposition of a true `placementOk` answer. -/
theorem placementOk_parts {d : Dungeon} {sp : Option (Nat × Nat)} {x y : Nat}
    (h : placementOk d sp x y = true) :
    d.is_position_clear (x : Int) (y : Int) = true ∧
      ∀ p, sp = some p → 2 < ((x : Int) - (p.1 : Int)).natAbs ∨
        2 < ((y : Int) - (p.2 : Int)).natAbs := by
  unfold placementOk at h
  rw [Bool.and_eq_true] at h
  refine ⟨h.1, ?_⟩
  intro p hp
  have h2 := h.2
  rw [hp] at h2
  dsimp only at h2
  rw [Bool.or_eq_true] at h2
  rcases h2 with h2 | h2
  · exact Or.inl (of_decide_eq_true h2)
  · exact Or.inr (of_decide_eq_true h2)

/-- A clear position is occupied by no current entity. -/
theorem is_position_clear_parts {d : Dungeon} {x y : Int}
    (h : d.is_position_clear x y = true) :
    ∀ e ∈ d.entities, ¬(e.x = x ∧ e.y = y) := by
  unfold Dungeon.is_position_clear at h
  rw [Bool.not_eq_true', List.any_eq_false] at h
  intro e he hc
  have hne := h e he
  simp only [Bool.and_eq_true, beq_iff_eq, not_and] at hne
  exact hne hc.1 hc.2

/-- Position facts recorded for every placed character: in bounds, on a
Floor/Stairs tile of the pre-population grid, and (when stairs exist)
at Chebyshev distance above 2 from them. -/
def posOk (t : Grid) (w h : Nat) (sp : Option (Nat × Nat)) (e : Entity) : Prop :=
  0 ≤ e.x ∧ e.x < (w : Int) ∧ 0 ≤ e.y ∧ e.y < (h : Int) ∧
    (getTile t e.x.toNat e.y.toNat = 1 ∨ getTile t e.x.toNat e.y.toNat = 2) ∧
    ∀ p, sp = some p → 2 < (e.x - (p.1 : Int)).natAbs ∨ 2 < (e.y - (p.2 : Int)).natAbs

/-- No two entities of the list share a position. -/
def distinctPos (l : List Entity) : Prop :=
  l.Pairwise fun a b => ¬(a.x = b.x ∧ a.y = b.y)

/-- What one run of the NPC placement loop does: `count` new characters
are appended to `entities` and `npcs` (nothing else changes), each at an
in-bounds clear Floor position away from the stairs. -/
theorem placeNpcs_spec {sp : Option (Nat × Nat)} {level : Nat}
    {oracle : String → Except String String} {parse : String → Option CharacterData}
    {fuel : Nat} :
    ∀ {count : Nat} {d : Dungeon} {g : NPCGenerator} {r : Rng}
      {out : Dungeon × NPCGenerator × Rng},
      placeNpcs sp level oracle parse fuel count d g r = some out →
      out.1.tiles = d.tiles ∧ out.1.width = d.width ∧ out.1.height = d.height ∧
      out.1.enemies = d.enemies ∧
      ∃ new : List Entity,
        out.1.entities = d.entities ++ new ∧ out.1.npcs = d.npcs ++ new ∧
        new.length = count ∧
        (∀ e ∈ new, posOk d.tiles d.width d.height sp e) ∧
        (distinctPos d.entities → distinctPos out.1.entities) := by
  intro count
  induction count with
  | zero =>
    intro d g r out h
    rw [show placeNpcs sp level oracle parse fuel 0 d g r = some (d, g, r) from rfl,
      Option.some.injEq] at h
    subst h
    exact ⟨rfl, rfl, rfl, rfl, [], by simp, by simp, rfl, by simp, fun hd => hd⟩
  | succ n ih =>
    intro d g r out h
    unfold placeNpcs at h
    cases hfp : findPlacement d sp fuel r with
    | none => rw [hfp] at h; cases h
    | some res =>
      obtain ⟨⟨x, y⟩, r2⟩ := res
      rw [hfp] at h
      dsimp only at h
      obtain ⟨npc, g2, r3, hgen⟩ :
          ∃ a b c, g.generate_npc level oracle parse r2 = (a, b, c) := ⟨_, _, _, rfl⟩
      rw [hgen] at h
      dsimp only at h
      obtain ⟨ht, hwd, hht, hen, new2, he2, hn2, hl2, hpos2, hdist2⟩ := ih h
      obtain ⟨hwalk, hok⟩ := findPlacement_spec hfp
      obtain ⟨hx0, hxw, hy0, hyh, htile⟩ := is_walkable_parts hwalk
      obtain ⟨hclear, hcheb⟩ := placementOk_parts hok
      refine ⟨ht, hwd, hht, hen,
        { npc with x := (x : Int), y := (y : Int) } :: new2, ?_, ?_, ?_, ?_, ?_⟩
      · rw [he2]
        simp
      · rw [hn2]
        simp
      · simp [hl2]
      · intro e he
        rcases List.mem_cons.mp he with rfl | hemem
        · exact ⟨hx0, hxw, hy0, hyh, htile, hcheb⟩
        · exact hpos2 e hemem
      · intro hd
        apply hdist2
        show distinctPos (d.entities ++ [{ npc with x := (x : Int), y := (y : Int) }])
        unfold distinctPos at hd ⊢
        rw [List.pairwise_append]
        refine ⟨hd, List.pairwise_singleton _ _, ?_⟩
        intro a ha b hb
        rw [List.mem_singleton] at hb
        subst hb
        exact is_position_clear_parts hclear a ha

/-- What one run of the enemy placement loop does, mirroring
`placeNpcs_spec` with `enemies` in place of `npcs`. -/
theorem placeEnemies_spec {sp : Option (Nat × Nat)} {level : Nat}
    {oracle : String → Except String String} {parse : String → Option CharacterData}
    {fuel : Nat} :
    ∀ {count : Nat} {d : Dungeon} {g : NPCGenerator} {r : Rng}
      {out : Dungeon × NPCGenerator × Rng},
      placeEnemies sp level oracle parse fuel count d g r = some out →
      out.1.tiles = d.tiles ∧ out.1.width = d.width ∧ out.1.height = d.height ∧
      out.1.npcs = d.npcs ∧
      ∃ new : List Entity,
        out.1.entities = d.entities ++ new ∧ out.1.enemies = d.enemies ++ new ∧
        new.length = count ∧
        (∀ e ∈ new, posOk d.tiles d.width d.height sp e) ∧
        (distinctPos d.entities → distinctPos out.1.entities) := by
  intro count
  induction count with
  | zero =>
    intro d g r out h
    rw [show placeEnemies sp level oracle parse fuel 0 d g r = some (d, g, r) from rfl,
      Option.some.injEq] at h
    subst h
    exact ⟨rfl, rfl, rfl, rfl, [], by simp, by simp, rfl, by simp, fun hd => hd⟩
  | succ n ih =>
    intro d g r out h
    unfold placeEnemies at h
    cases hfp : findPlacement d sp fuel r with
    | none => rw [hfp] at h; cases h
    | some res =>
      obtain ⟨⟨x, y⟩, r2⟩ := res
      rw [hfp] at h
      dsimp only at h
      obtain ⟨enemy, g2, r3, hgen⟩ :
          ∃ a b c, g.generate_enemy level oracle parse r2 = (a, b, c) := ⟨_, _, _, rfl⟩
      rw [hgen] at h
      dsimp only at h
      obtain ⟨ht, hwd, hht, hnp, new2, he2, hn2, hl2, hpos2, hdist2⟩ := ih h
      obtain ⟨hwalk, hok⟩ := findPlacement_spec hfp
      obtain ⟨hx0, hxw, hy0, hyh, htile⟩ := is_walkable_parts hwalk
      obtain ⟨hclear, hcheb⟩ := placementOk_parts hok
      refine ⟨ht, hwd, hht, hnp,
        { enemy with x := (x : Int), y := (y : Int) } :: new2, ?_, ?_, ?_, ?_, ?_⟩
      · rw [he2]
        simp
      · rw [hn2]
        simp
      · simp [hl2]
      · intro e he
        rcases List.mem_cons.mp he with rfl | hemem
        · exact ⟨hx0, hxw, hy0, hyh, htile, hcheb⟩
        · exact hpos2 e hemem
      · intro hd
        apply hdist2
        show distinctPos (d.entities ++ [{ enemy with x := (x : Int), y := (y : Int) }])
        unfold distinctPos at hd ⊢
        rw [List.pairwise_append]
        refine ⟨hd, List.pairwise_singleton _ _, ?_⟩
        intro a ha b hb
        rw [List.mem_singleton] at hb
        subst hb
        exact is_position_clear_parts hclear a ha

/-- A 6-by-6 all-Floor dungeon with no entities, for the C3 run. -/
def c3Dungeon : Dungeon :=
  { width := 6, height := 6, tiles := List.replicate 6 (List.replicate 6 1)
    entities := [], npcs := [], enemies := [], items := [] }

/-- A random stream driving `populate_entities` to draw 3 NPCs and 2
enemies at distinct interior positions. -/
def c3Rng : Rng :=
  ⟨fun i => [2, 0, 0, 0, 1, 0, 0, 2, 0, 0, 0, 3, 0, 0, 0, 1, 0].getD i 0, 0⟩

/-- Claim C3 counterexample: a successful `populate_entities` run at
level 0 places 3 NPCs — the claimed range is 1 to 2 — and 2 enemies,
not the claimed 3 + 0/2 = 3: the source draws `randint(1, 3)` NPCs and
`randint(2, 5 + level)` enemies. -/
theorem claim_C3_counterexample :
    (populate_entities c3Dungeon (NPCGenerator.make false) 0
        (fun _ => Except.error "") (fun _ => none) 6 c3Rng).map
      (fun out => (out.1.npcs.length, out.1.enemies.length)) = some (3, 2) ∧
    ¬(3 ≤ 2) ∧ (2 : Nat) ≠ 3 + 0 / 2 := by decide

/-- Claim C3 (amended): a returning `populate_entities` call clears the
entity lists and then places between 1 and 3 NPCs (`randint(1, 3)`) and
between 2 and `5 + level` enemies (`randint(2, 5 + level)`), leaving
`entities` as exactly the placed NPCs followed by the placed enemies;
every placed character sits in bounds on a Floor or Stairs tile of the
unchanged grid, at Chebyshev distance above 2 from the stairs when the
grid has any, and no two placed characters share a position. -/
theorem claim_C3 :
    ∀ (d : Dungeon) (g : NPCGenerator) (level : Nat)
      (oracle : String → Except String String)
      (parse : String → Option CharacterData) (fuel : Nat) (r : Rng)
      (d' : Dungeon) (g' : NPCGenerator) (r' : Rng),
      populate_entities d g level oracle parse fuel r = some (d', g', r') →
      d'.tiles = d.tiles ∧
      1 ≤ d'.npcs.length ∧ d'.npcs.length ≤ 3 ∧
      2 ≤ d'.enemies.length ∧ d'.enemies.length ≤ 5 + level ∧
      d'.entities = d'.npcs ++ d'.enemies ∧
      (∀ e ∈ d'.entities, posOk d.tiles d.width d.height (findStairs d) e) ∧
      distinctPos d'.entities := by
  intro d g level oracle parse fuel r d' g' r' h
  unfold populate_entities at h
  obtain ⟨nn, r1, hnn⟩ : ∃ a b, randint 1 3 r = (a, b) := ⟨_, _, rfl⟩
  rw [hnn] at h
  dsimp only at h
  cases hpn : placeNpcs
      (findStairs { d with entities := [], npcs := [], enemies := [] })
      level oracle parse fuel nn
      { d with entities := [], npcs := [], enemies := [] } g r1 with
  | none => rw [hpn] at h; cases h
  | some res =>
    obtain ⟨d1, g1, r2⟩ := res
    rw [hpn] at h
    dsimp only at h
    obtain ⟨ne, r3, hne⟩ : ∃ a b, randint 2 (5 + level) r2 = (a, b) := ⟨_, _, rfl⟩
    rw [hne] at h
    dsimp only at h
    obtain ⟨htN, hwN, hhN, henN, newN, heN, hnN, hlN, hposN, hdistN⟩ :=
      placeNpcs_spec hpn
    obtain ⟨htE, hwE, hhE, hnpE, newE, heE, henE, hlE, hposE, hdistE⟩ :=
      placeEnemies_spec h
    have hbN := randint_bounds (by omega : (1 : Nat) ≤ 3) r
    rw [hnn] at hbN
    have hbE := randint_bounds (by omega : (2 : Nat) ≤ 5 + level) r2
    rw [hne] at hbE
    have hnpcLen : d'.npcs.length = nn := by
      rw [hnpE, hnN, List.length_append, hlN]
      simp
    have hd1enLen : d1.enemies.length = 0 := by
      rw [henN]
      rfl
    have henLen : d'.enemies.length = ne := by
      rw [henE, List.length_append, hd1enLen, hlE]
      omega
    refine ⟨htE.trans htN, by omega, by omega, by omega, by omega, ?_, ?_, ?_⟩
    · rw [heE, heN, hnpE, hnN, henE, henN]
      simp
    · intro e he
      rw [heE] at he
      rcases List.mem_append.mp he with he1 | he2
      · rw [heN] at he1
        rcases List.mem_append.mp he1 with he0 | heN'
        · exact absurd he0 (by simp)
        · exact hposN e heN'
      · have hp := hposE e he2
        rw [htN, hwN, hhN] at hp
        exact hp
    · apply hdistE
      apply hdistN
      exact List.Pairwise.nil

/-- Witness for claim C3 at a concrete run: the five characters placed
by the counterexample configuration occupy five distinct positions. -/
theorem claim_C3_witness :
    distinctPos ((populate_entities c3Dungeon (NPCGenerator.make false) 0
        (fun _ => Except.error "") (fun _ => none) 6 c3Rng).getD
      (c3Dungeon, NPCGenerator.make false, c3Rng)).1.entities :=
  (claim_C3 c3Dungeon (NPCGenerator.make false) 0 (fun _ => Except.error "")
    (fun _ => none) 6 c3Rng _ _ _ rfl).2.2.2.2.2.2.2

/-- Every NPC the generator returns is tagged `entity_type = "npc"`. -/
theorem generate_npc_type (g : NPCGenerator) (level : Nat)
    (oracle : String → Except String String) (parse : String → Option CharacterData)
    (r : Rng) :
    (g.generate_npc level oracle parse r).1.entity_type = "npc" := by
  unfold NPCGenerator.generate_npc
  dsimp only
  split_ifs with hp hphil
  · rfl
  · split
    · rfl
    · split
      · rfl
      · rfl
  · split
    · rfl
    · split
      · rfl
      · rfl

/-- Every enemy the generator returns is tagged `entity_type = "enemy"`. -/
theorem generate_enemy_type (g : NPCGenerator) (level : Nat)
    (oracle : String → Except String String) (parse : String → Option CharacterData)
    (r : Rng) :
    (g.generate_enemy level oracle parse r).1.entity_type = "enemy" := by
  unfold NPCGenerator.generate_enemy
  dsimp only
  split_ifs with hp hphil
  · rfl
  · split
    · rfl
    · split
      · rfl
      · rfl
  · split
    · rfl
    · split
      · rfl
      · rfl

/-- The NPC placement loop adds only `"npc"`-typed entities. -/
theorem placeNpcs_types {sp : Option (Nat × Nat)} {level : Nat}
    {oracle : String → Except String String} {parse : String → Option CharacterData}
    {fuel : Nat} :
    ∀ {count : Nat} {d : Dungeon} {g : NPCGenerator} {r : Rng}
      {out : Dungeon × NPCGenerator × Rng},
      placeNpcs sp level oracle parse fuel count d g r = some out →
      ∀ e ∈ out.1.entities, e ∈ d.entities ∨ e.entity_type = "npc" := by
  intro count
  induction count with
  | zero =>
    intro d g r out h e he
    rw [show placeNpcs sp level oracle parse fuel 0 d g r = some (d, g, r) from rfl,
      Option.some.injEq] at h
    subst h
    exact Or.inl he
  | succ n ih =>
    intro d g r out h e he
    unfold placeNpcs at h
    cases hfp : findPlacement d sp fuel r with
    | none => rw [hfp] at h; cases h
    | some res =>
      obtain ⟨⟨x, y⟩, r2⟩ := res
      rw [hfp] at h
      dsimp only at h
      obtain ⟨npc, g2, r3, hgen⟩ :
          ∃ a b c, g.generate_npc level oracle parse r2 = (a, b, c) := ⟨_, _, _, rfl⟩
      rw [hgen] at h
      dsimp only at h
      rcases ih h e he with hin | htype
      · rcases List.mem_append.mp hin with h1 | h2
        · exact Or.inl h1
        · right
          rw [List.mem_singleton] at h2
          subst h2
          have hty := generate_npc_type g level oracle parse r2
          rw [hgen] at hty
          exact hty
      · exact Or.inr htype

/-- The enemy placement loop adds only `"enemy"`-typed entities. -/
theorem placeEnemies_types {sp : Option (Nat × Nat)} {level : Nat}
    {oracle : String → Except String String} {parse : String → Option CharacterData}
    {fuel : Nat} :
    ∀ {count : Nat} {d : Dungeon} {g : NPCGenerator} {r : Rng}
      {out : Dungeon × NPCGenerator × Rng},
      placeEnemies sp level oracle parse fuel count d g r = some out →
      ∀ e ∈ out.1.entities, e ∈ d.entities ∨ e.entity_type = "enemy" := by
  intro count
  induction count with
  | zero =>
    intro d g r out h e he
    rw [show placeEnemies sp level oracle parse fuel 0 d g r = some (d, g, r) from rfl,
      Option.some.injEq] at h
    subst h
    exact Or.inl he
  | succ n ih =>
    intro d g r out h e he
    unfold placeEnemies at h
    cases hfp : findPlacement d sp fuel r with
    | none => rw [hfp] at h; cases h
    | some res =>
      obtain ⟨⟨x, y⟩, r2⟩ := res
      rw [hfp] at h
      dsimp only at h
      obtain ⟨enemy, g2, r3, hgen⟩ :
          ∃ a b c, g.generate_enemy level oracle parse r2 = (a, b, c) := ⟨_, _, _, rfl⟩
      rw [hgen] at h
      dsimp only at h
      rcases ih h e he with hin | htype
      · rcases List.mem_append.mp hin with h1 | h2
        · exact Or.inl h1
        · right
          rw [List.mem_singleton] at h2
          subst h2
          have hty := generate_enemy_type g level oracle parse r2
          rw [hgen] at hty
          exact hty
      · exact Or.inr htype

/-- A 5-by-5 all-Floor dungeon holding one enemy at (1, 1). -/
def c10Dungeon : Dungeon :=
  { width := 5, height := 5, tiles := List.replicate 5 (List.replicate 5 1)
    entities := [Enemy.make "Snarl" 1 1 10 2]
    npcs := [], enemies := [Enemy.make "Snarl" 1 1 10 2], items := [] }

/-- The enemy of `c10Dungeon`. -/
def c10Enemy : Entity := Enemy.make "Snarl" 1 1 10 2

/-- A player standing diagonally adjacent to the enemy. -/
def c10Player : Entity := Player.make "Hero" 2 2

/-- A constant random stream (the chase branch draws nothing). -/
def c10Rng : Rng := ⟨fun _ => 0, 0⟩

/-- Claim C10: `populate_entities` inserts only `"npc"`/`"enemy"`-typed
characters, never the player; `is_walkable` consults only the dungeon's
own entity lists, so it answers true at any in-bounds Floor/Stairs cell
free of blocking listed entities — the player's own tile included; and
in a concrete update an enemy one diagonal step away moves exactly onto
the player's tile. -/
theorem claim_C10 :
    (∀ (d : Dungeon) (g : NPCGenerator) (level : Nat)
        (oracle : String → Except String String)
        (parse : String → Option CharacterData) (fuel : Nat) (r : Rng)
        (d' : Dungeon) (g' : NPCGenerator) (r' : Rng),
        populate_entities d g level oracle parse fuel r = some (d', g', r') →
        ∀ e ∈ d'.entities, e.entity_type = "npc" ∨ e.entity_type = "enemy") ∧
    (∀ (d : Dungeon) (x y : Int),
        (0 ≤ x ∧ x < (d.width : Int) ∧ 0 ≤ y ∧ y < (d.height : Int)) →
        (getTile d.tiles x.toNat y.toNat = 1 ∨ getTile d.tiles x.toNat y.toNat = 2) →
        (∀ e ∈ d.entities, e.blocks_movement = true → ¬(e.x = x ∧ e.y = y)) →
        d.is_walkable x y = true) ∧
    ((Enemy.update c10Enemy c10Player.x c10Player.y (some c10Dungeon) c10Rng).1.x
        = c10Player.x ∧
      (Enemy.update c10Enemy c10Player.x c10Player.y (some c10Dungeon) c10Rng).1.y
        = c10Player.y ∧
      c10Player.entity_type = "player" ∧ c10Player ∉ c10Dungeon.entities) := by
  refine ⟨?_, ?_, by decide⟩
  · intro d g level oracle parse fuel r d' g' r' h e he
    unfold populate_entities at h
    obtain ⟨nn, r1, hnn⟩ : ∃ a b, randint 1 3 r = (a, b) := ⟨_, _, rfl⟩
    rw [hnn] at h
    dsimp only at h
    cases hpn : placeNpcs
        (findStairs { d with entities := [], npcs := [], enemies := [] })
        level oracle parse fuel nn
        { d with entities := [], npcs := [], enemies := [] } g r1 with
    | none => rw [hpn] at h; cases h
    | some res =>
      obtain ⟨d1, g1, r2⟩ := res
      rw [hpn] at h
      dsimp only at h
      obtain ⟨ne, r3, hne⟩ : ∃ a b, randint 2 (5 + level) r2 = (a, b) := ⟨_, _, rfl⟩
      rw [hne] at h
      dsimp only at h
      rcases placeEnemies_types h e he with hin | hty
      · rcases placeNpcs_types hpn e hin with hin0 | hty
        · exact absurd hin0 (by simp)
        · exact Or.inl hty
      · exact Or.inr hty
  · intro d x y hb h2 h3
    unfold Dungeon.is_walkable
    rw [if_pos hb, if_neg (fun hc => h2.elim hc.1 hc.2)]
    rw [Bool.not_eq_true', List.any_eq_false]
    intro e he
    have h3e := h3 e he
    by_cases hbx : e.x = x
    · by_cases hby : e.y = y
      · have hbf : e.blocks_movement = false := by
          rcases Bool.eq_false_or_eq_true e.blocks_movement with htr | hf
          · exact absurd ⟨hbx, hby⟩ (h3e htr)
          · exact hf
        simp [hbf]
      · simp [hby]
    · simp [hbx]

/-- Witness for claim C10: its population part applied to the concrete
level-0 run of `c3Dungeon` shows every placed character is an NPC or an
enemy. -/
theorem claim_C10_witness :
    (((populate_entities c3Dungeon (NPCGenerator.make false) 0
        (fun _ => Except.error "") (fun _ => none) 6 c3Rng).getD
      (c3Dungeon, NPCGenerator.make false, c3Rng)).1.entities.headD
        (Player.make "Hero")).entity_type = "npc" ∨
    (((populate_entities c3Dungeon (NPCGenerator.make false) 0
        (fun _ => Except.error "") (fun _ => none) 6 c3Rng).getD
      (c3Dungeon, NPCGenerator.make false, c3Rng)).1.entities.headD
        (Player.make "Hero")).entity_type = "enemy" :=
  claim_C10.1 c3Dungeon (NPCGenerator.make false) 0 (fun _ => Except.error "")
    (fun _ => none) 6 c3Rng _ _ _ rfl _ (by decide)

/-- Witness for claim C2 on a concrete grid: a Floor tile at the start
cell of a carved repair corridor is still Floor afterwards. -/
theorem claim_C2_witness :
    getTile (create_direct_path
      (setTile (List.replicate 3 (List.replicate 3 0)) 0 0 1) (0, 0) (2, 2))
      0 0 = 1 :=
  claim_C2.1 (setTile (List.replicate 3 (List.replicate 3 0)) 0 0 1)
    (0, 0) (2, 2) 0 0 (by decide)

end Rogue
